import Mathlib

/-!
Verification of the NCPDP pharmacy-claim codec.

The embedding models Python strings as lists of characters (`PyStr`).
Fallible Python code (raised exceptions, pydantic validation failures)
is modelled with `Except PErr`.  `Except.ok` carries the Python return
value; functions that may return `None` carry an `Option` inside.

The source of truth is `ncpdp_parser.py` (header codec, segment codecs,
claim aggregator, overpunch decode) together with `hello.py`
(`encode_overpunch`).
-/

set_option maxRecDepth 8000

namespace NCPDP

/-- Python strings, modelled as lists of unicode characters. -/
abbrev PyStr := List Char

/-- `chr(28)`, the NCPDP field separator (FIELD_SEPARATOR). -/
def FSc : Char := Char.ofNat 28

/-- `chr(29)`, the NCPDP group separator (GROUP_SEPARATOR). -/
def GSc : Char := Char.ofNat 29

/-- `chr(30)`, the NCPDP segment separator (SEGMENT_SEPARATOR). -/
def RSc : Char := Char.ofNat 30

/-- Characters removed by Python `str.strip()` with no argument.  Python
strips unicode whitespace; this covers the ASCII whitespace characters,
the separator control bytes `0x1c`-`0x1f` (which Python treats as
whitespace), and the latin-1 spaces.  Inputs of this codec are ASCII
text plus the three separators, so this is the relevant set. -/
def isPySpace (c : Char) : Bool :=
  c = ' ' || c = '\t' || c = '
' || c = Char.ofNat 11 || c = Char.ofNat 12 ||
  c = '\r' || c = Char.ofNat 28 || c = Char.ofNat 29 || c = Char.ofNat 30 ||
  c = Char.ofNat 31 || c = Char.ofNat 0x85 || c = Char.ofNat 0xa0

/-- Left part of Python `str.strip()`. -/
def stripLeft (l : PyStr) : PyStr := l.dropWhile (fun c => isPySpace c)

/-- Right part of Python `str.strip()`. -/
def stripRight (l : PyStr) : PyStr :=
  (l.reverse.dropWhile (fun c => isPySpace c)).reverse

/-- Python `str.strip()` with no argument. -/
def pyStrip (l : PyStr) : PyStr := stripLeft (stripRight l)

/-- Python `str.split(sep)` for a one-character separator.  Like Python,
the result is always non-empty and `"".split(sep) == [""]`. -/
def splitOnChar (sep : Char) : PyStr → List PyStr
  | [] => [[]]
  | c :: cs =>
    match splitOnChar sep cs with
    | [] => [[c]]
    | h :: t => if c = sep then [] :: h :: t else (c :: h) :: t

/-- Python `sep.join(pieces)` for a one-character separator. -/
def pyJoin (sep : Char) : List PyStr → PyStr
  | [] => []
  | [x] => x
  | x :: y :: xs => x ++ sep :: pyJoin sep (y :: xs)

/-- Python `str.rjust(w)` (pad with spaces on the left). -/
def pyRJust (w : Nat) (v : PyStr) : PyStr := List.replicate (w - v.length) ' ' ++ v

/-- Python `str.ljust(w)` (pad with spaces on the right). -/
def pyLJust (w : Nat) (v : PyStr) : PyStr := v ++ List.replicate (w - v.length) ' '

/-- The decimal digit character for `n % 10`. -/
def digitChar (n : Nat) : Char := Char.ofNat (48 + n % 10)

/-- Numeric value of a decimal digit character. -/
def digitVal (c : Char) : Nat := c.toNat - 48

/-- All characters are ASCII decimal digits. -/
def allDigits (l : PyStr) : Bool := l.all (fun c => c.isDigit)

/-- Value of a string of decimal digits. -/
def pyToNat (l : PyStr) : Nat := l.foldl (fun a c => 10 * a + digitVal c) 0

/-- Error values: `shortInput` models the explicit "Input string too
short" ValueError of the header codec, `valueError` any other raised
`ValueError`, `validationError` a pydantic validation failure. -/
inductive PErr where
  | shortInput
  | valueError
  | validationError
deriving DecidableEq, Repr

instance exceptDecEq {ε α : Type} [DecidableEq ε] [DecidableEq α] :
    DecidableEq (Except ε α) := fun a b =>
  match a, b with
  | .ok x, .ok y =>
    if h : x = y then isTrue (by rw [h]) else isFalse (by simp [h])
  | .error x, .error y =>
    if h : x = y then isTrue (by rw [h]) else isFalse (by simp [h])
  | .ok _, .error _ => isFalse (by simp)
  | .error _, .ok _ => isFalse (by simp)

/-! ### Overpunch codec

`encode_overpunch` comes from `hello.py`.  Its translation table is a
Python `dict` literal listing keys `0, 1, ..., 9, -0, -1, ..., -9`.
Python integers have no negative zero, so the key `-0` is the same key
as `0` and its value `"}"` silently replaces the earlier value `"{"`.
The embedding keeps the literal entry list and realizes Python dict
semantics (the last binding of a key wins) in the lookup. -/

/-- The entry list of the `overpunch_map` dict literal in
`hello.py.encode_overpunch`, in source order.  Note the `-0` entry. -/
def encodeEntries : List (Int × Char) :=
  [(0, '{'), (1, 'A'), (2, 'B'), (3, 'C'), (4, 'D'), (5, 'E'), (6, 'F'),
   (7, 'G'), (8, 'H'), (9, 'I'),
   (-0, '}'), (-1, 'J'), (-2, 'K'), (-3, 'L'), (-4, 'M'), (-5, 'N'),
   (-6, 'O'), (-7, 'P'), (-8, 'Q'), (-9, 'R')]

/-- Lookup in a Python dict built from a literal entry list: the last
binding of a key wins. -/
def pyDictGet (l : List (Int × Char)) (k : Int) : Option Char :=
  ((l.filter (fun e => e.1 = k)).getLast?).map (fun e => e.2)

/-- `hello.py` `encode_overpunch(value)`.  `str(abs(value))` is the
decimal digit string; the last digit, signed by `value >= 0`, is looked
up in the dict; the missing-key branch cannot occur (every signed digit
is a key), so the `Option` is discharged with a default. -/
def encodeOverpunch (n : Int) : PyStr :=
  let sv := Nat.toDigits 10 n.natAbs
  let lastDigit : Int := (digitVal (sv.getLastD '0') : Int) * (if 0 ≤ n then 1 else -1)
  let c := (pyDictGet encodeEntries lastDigit).getD ' '
  sv.dropLast ++ [c]

/-- The `overpunch_map` of `PricingSegment.decode_overpunch`
(`ncpdp_parser.py`), as a function from the trailing character to
(digit, is-negative).  The dict maps digits and `{`/`A`-`I` to positive
digits and `}`/`J`-`R` to negative ones. -/
def decodeMap (c : Char) : Option (Nat × Bool) :=
  if c.isDigit then some (digitVal c, false)
  else if c = '{' then some (0, false)
  else if 'A' ≤ c ∧ c ≤ 'I' then some (c.toNat - 64, false)
  else if c = '}' then some (0, true)
  else if 'J' ≤ c ∧ c ≤ 'R' then some (c.toNat - 73, true)
  else none

/-- Digit-run scanner of Python `int(str)`: digits with single
underscores allowed between digits. -/
def pyDigitsGo (acc : Nat) : List Char → Option Nat
  | [] => some acc
  | ['_'] => none
  | '_' :: c :: cs =>
    if c.isDigit then pyDigitsGo (10 * acc + digitVal c) cs else none
  | c :: cs =>
    if c.isDigit then pyDigitsGo (10 * acc + digitVal c) cs else none

/-- Digit run of Python `int(str)`: non-empty, starts with a digit. -/
def pyDigitsVal : List Char → Option Nat
  | [] => none
  | c :: cs => if c.isDigit then pyDigitsGo (digitVal c) cs else none

/-- Python `int(s)` on ASCII text: surrounding whitespace stripped, an
optional sign, then a digit run.  `none` models the raised
`ValueError`. -/
def pyInt (s : PyStr) : Option Int :=
  match pyStrip s with
  | '+' :: rest => (pyDigitsVal rest).map (fun n => (n : Int))
  | '-' :: rest => (pyDigitsVal rest).map (fun n => -(n : Int))
  | rest => (pyDigitsVal rest).map (fun n => (n : Int))

/-- `PricingSegment.decode_overpunch(value)` from `ncpdp_parser.py`.
Empty input and an unmapped trailing character (after `.upper()`)
return Python `None` (`.ok none`); a prefix rejected by `int()` raises
(`.error .valueError`); otherwise the signed integer is returned. -/
def decodeOverpunch (v : PyStr) : Except PErr (Option Int) :=
  match v with
  | [] => .ok none
  | _ :: _ =>
    let sc := v.getLastD ' '
    let np := v.dropLast
    match decodeMap sc.toUpper with
    | none => .ok none
    | some (d, neg) =>
      match pyInt (np ++ [digitChar d]) with
      | none => .error .valueError
      | some k => .ok (some (if neg then -k else k))

/-! ### Transaction header codec (`NCPDPClaimHeader`, `NCPDPFormat`) -/

/-- Direction of padding for fixed-width fields (`PaddingDirection`). -/
inductive PadDir where
  | left
  | right
deriving DecidableEq, Repr

/-- `NCPDPPosition`: start offset, length and padding direction of a
fixed-width header field. -/
structure Pos where
  start : Nat
  len : Nat
  padding : PadDir
deriving DecidableEq, Repr

/-- `NCPDPPosition.slice`: `data[start : start+length].strip()`.
Python slicing clamps out-of-range indices exactly like
`List.drop`/`List.take`. -/
def posSlice (p : Pos) (data : PyStr) : PyStr :=
  pyStrip ((data.drop p.start).take p.len)

/-- `NCPDPPosition.pad`: `None` becomes the empty string, an over-long
value raises `ValueError`, otherwise the value is right-justified
(left padding) or left-justified (right padding). -/
def posPad (p : Pos) (v : Option PyStr) : Except PErr PyStr :=
  if (v.getD []).length > p.len then .error .valueError
  else if p.padding = .left then .ok (pyRJust p.len (v.getD []))
  else .ok (pyLJust p.len (v.getD []))

/-- The `NCPDPFormat` field-position table of `ncpdp_parser.py`. -/
def fmtRXBIN : Pos := ⟨0, 6, .right⟩

def fmtVERSION : Pos := ⟨6, 2, .left⟩

def fmtTRANSACTION_CODE : Pos := ⟨8, 2, .left⟩

def fmtPCN : Pos := ⟨10, 10, .right⟩

def fmtTRANSACTION_COUNT : Pos := ⟨20, 1, .left⟩

def fmtSERVICE_PROVIDER_ID_QUAL : Pos := ⟨21, 2, .left⟩

def fmtSERVICE_PROVIDER_ID : Pos := ⟨23, 15, .right⟩

def fmtSERVICE_DATE : Pos := ⟨38, 8, .left⟩

def fmtCERTIFICATION_ID : Pos := ⟨46, 10, .right⟩

/-- `NCPDP_HEADER_LENGTH`. -/
def headerLength : Nat := 56

/-- The `NCPDPClaimHeader` pydantic model.  Enum-typed fields
(`version`, `transaction_code`) and pattern-constrained fields are
stored as their string values; the pydantic constraints are the
`headerFieldsValid` predicate below. -/
structure Header where
  rxbin : PyStr
  version : PyStr
  transaction_code : PyStr
  pcn : Option PyStr
  transaction_count : PyStr
  service_provider_id_qual : PyStr
  service_provider_id : Option PyStr
  service_date : PyStr
  certification_id : Option PyStr
deriving DecidableEq, Repr

/-- The two `Version` codes. -/
def versionCodes : List PyStr := [['D', '0'], ['5', '1']]

/-- The 21 `TransactionCode` values. -/
def transactionCodes : List PyStr :=
  [['B', '1'], ['B', '2'], ['B', '3'], ['C', '1'], ['C', '2'], ['C', '3'],
   ['D', '1'], ['E', '1'], ['N', '1'], ['N', '2'], ['N', '3'], ['P', '1'],
   ['P', '2'], ['P', '3'], ['P', '4'], ['S', '1'], ['S', '2'], ['S', '3'],
   ['F', '1'], ['F', '2'], ['F', '3']]

/-- Regex `^\d{6}$` (the `rxbin` constraint). -/
def digits6 (l : PyStr) : Bool := l.length = 6 && allDigits l

/-- Regex `^[1-9]$` (the `transaction_count` constraint). -/
def count1to9 (l : PyStr) : Bool :=
  match l with
  | [c] => '1' ≤ c && c ≤ '9'
  | _ => false

/-- Regex `^[0-9][0-9]?$` (the `service_provider_id_qual` constraint). -/
def digits1or2 (l : PyStr) : Bool :=
  (l.length = 1 || l.length = 2) && allDigits l

/-- Regex `^\d{4}(0[1-9]|1[0-2])(0[1-9]|[12]\d|3[01])$` (the
`service_date` constraint). -/
def dateShape (l : PyStr) : Bool :=
  l.length = 8 && allDigits l &&
  (let m := pyToNat ((l.drop 4).take 2)
   let d := pyToNat ((l.drop 6).take 2)
   1 ≤ m && m ≤ 12 && 1 ≤ d && d ≤ 31)

/-- Optional string field with a pydantic `max_length` bound. -/
def optMaxLen (n : Nat) (v : Option PyStr) : Bool :=
  match v with
  | none => true
  | some s => s.length ≤ n

/-- The pydantic field validation of `NCPDPClaimHeader`. -/
def headerFieldsValid (h : Header) : Bool :=
  digits6 h.rxbin && decide (h.version ∈ versionCodes) &&
  decide (h.transaction_code ∈ transactionCodes) && optMaxLen 10 h.pcn &&
  count1to9 h.transaction_count && digits1or2 h.service_provider_id_qual &&
  optMaxLen 15 h.service_provider_id && dateShape h.service_date &&
  optMaxLen 10 h.certification_id

/-- `NCPDPClaimHeader.parse`: rejects inputs shorter than 56
characters, slices each field, maps entirely-blank `pcn`,
`service_provider_id` and `certification_id` slices to `None`, and
validates (enum constructors and pydantic both raise on bad values,
modelled as a single `.validationError`).  `headerParseRaw` is the
record of sliced fields; `headerParse` adds the length guard and the
validation. -/
def headerParseRaw (s : PyStr) : Header :=
  { rxbin := posSlice fmtRXBIN s
    version := posSlice fmtVERSION s
    transaction_code := posSlice fmtTRANSACTION_CODE s
    pcn := if pyStrip (posSlice fmtPCN s) = [] then none else some (posSlice fmtPCN s)
    transaction_count := posSlice fmtTRANSACTION_COUNT s
    service_provider_id_qual := posSlice fmtSERVICE_PROVIDER_ID_QUAL s
    service_provider_id :=
      if pyStrip (posSlice fmtSERVICE_PROVIDER_ID s) = [] then none
      else some (posSlice fmtSERVICE_PROVIDER_ID s)
    service_date := posSlice fmtSERVICE_DATE s
    certification_id :=
      if pyStrip (posSlice fmtCERTIFICATION_ID s) = [] then none
      else some (posSlice fmtCERTIFICATION_ID s) }

def headerParse (s : PyStr) : Except PErr Header :=
  if s.length < headerLength then .error .shortInput
  else if headerFieldsValid (headerParseRaw s) then .ok (headerParseRaw s)
  else .error .validationError

/-- `NCPDPClaimHeader.serialize`: concatenation of the nine padded
fields. -/
def headerSerialize (h : Header) : Except PErr PyStr := do
  let b1 ← posPad fmtRXBIN (some h.rxbin)
  let b2 ← posPad fmtVERSION (some h.version)
  let b3 ← posPad fmtTRANSACTION_CODE (some h.transaction_code)
  let b4 ← posPad fmtPCN h.pcn
  let b5 ← posPad fmtTRANSACTION_COUNT (some h.transaction_count)
  let b6 ← posPad fmtSERVICE_PROVIDER_ID_QUAL (some h.service_provider_id_qual)
  let b7 ← posPad fmtSERVICE_PROVIDER_ID h.service_provider_id
  let b8 ← posPad fmtSERVICE_DATE (some h.service_date)
  let b9 ← posPad fmtCERTIFICATION_ID h.certification_id
  return b1 ++ b2 ++ b3 ++ b4 ++ b5 ++ b6 ++ b7 ++ b8 ++ b9

/-! ### Dates

`PatientSegment.dob` is a Python `datetime`.  The `parse_date`
validator uses `strptime("%Y%m%d")`, which requires exactly eight
digits, a real calendar date and a year of at least 1 (datetime's
MINYEAR), and yields midnight.  Serialization uses
`strftime("%Y%m%d")`; the digit-decomposition below zero-pads the year
to four digits, which agrees with CPython for the years a `%Y%m%d`
round trip can produce. -/

structure PyDateTime where
  year : Nat
  month : Nat
  day : Nat
  hour : Nat
  minute : Nat
  second : Nat
  microsecond : Nat
deriving DecidableEq, Repr

/-- Gregorian leap year. -/
def isLeap (y : Nat) : Bool := (y % 4 = 0 && y % 100 ≠ 0) || y % 400 = 0

/-- Days in a month. -/
def daysInMonth (y m : Nat) : Nat :=
  if m = 2 then (if isLeap y then 29 else 28)
  else if m = 4 || m = 6 || m = 9 || m = 11 then 30
  else 31

/-- Two-digit zero-padded decimal. -/
def zpad2 (n : Nat) : PyStr := [digitChar (n / 10), digitChar n]

/-- Four-digit zero-padded decimal. -/
def zpad4 (n : Nat) : PyStr :=
  [digitChar (n / 1000), digitChar (n / 100), digitChar (n / 10), digitChar n]

/-- `datetime.strptime(value, "%Y%m%d")`. -/
def strptimeYmd (v : PyStr) : Option PyDateTime :=
  if v.length = 8 && allDigits v then
    let y := pyToNat (v.take 4)
    let m := pyToNat ((v.drop 4).take 2)
    let d := pyToNat ((v.drop 6).take 2)
    if 1 ≤ y && 1 ≤ m && m ≤ 12 && 1 ≤ d && d ≤ daysInMonth y m then
      some ⟨y, m, d, 0, 0, 0, 0⟩
    else none
  else none

/-- `dob.strftime("%Y%m%d")`. -/
def strftimeYmd (d : PyDateTime) : PyStr := zpad4 d.year ++ zpad2 d.month ++ zpad2 d.day

/-! ### Segments

Each pydantic segment class becomes a structure whose string-typed and
enum-typed attributes are stored as raw strings; the pydantic
constraints become the validation checks of the `...FromValues`
constructors, which model `segment_class(**result)` in
`parse_segment`. -/

/-- Segment id `"AM04"` (Insurance). -/
def AM04s : PyStr := ['A', 'M', '0', '4']

/-- Segment id `"AM01"` (Patient). -/
def AM01s : PyStr := ['A', 'M', '0', '1']

/-- Segment id `"AM07"` (Claim). -/
def AM07s : PyStr := ['A', 'M', '0', '7']

/-- Segment id `"AM11"` (Pricing). -/
def AM11s : PyStr := ['A', 'M', '1', '1']

/-- Segment id `"AM03"` (Prescriber). -/
def AM03s : PyStr := ['A', 'M', '0', '3']

/-- Segment id `"AM06"` (Pharmacy provider). -/
def AM06s : PyStr := ['A', 'M', '0', '6']

/-- Segment id `"AM08"` (Clinical). -/
def AM08s : PyStr := ['A', 'M', '0', '8']

def kC1 : PyStr := ['C', '1']

def kC2 : PyStr := ['C', '2']

def kC3 : PyStr := ['C', '3']

def kA6 : PyStr := ['A', '6']

def kA7 : PyStr := ['A', '7']

def kC4 : PyStr := ['C', '4']

def kC5 : PyStr := ['C', '5']

def kCA : PyStr := ['C', 'A']

def kCB : PyStr := ['C', 'B']

def kCP : PyStr := ['C', 'P']

def kEM : PyStr := ['E', 'M']

def kD2 : PyStr := ['D', '2']

def kE1 : PyStr := ['E', '1']

def kD7 : PyStr := ['D', '7']

def kE7 : PyStr := ['E', '7']

def kD3 : PyStr := ['D', '3']

def kSE : PyStr := ['S', 'E']

def kD5 : PyStr := ['D', '5']

def kD8 : PyStr := ['D', '8']

def kDE : PyStr := ['D', 'E']

def kD6 : PyStr := ['D', '6']

def kDF : PyStr := ['D', 'F']

def kDJ : PyStr := ['D', 'J']

def kDT : PyStr := ['D', 'T']

def kEB : PyStr := ['E', 'B']

def kD9 : PyStr := ['D', '9']

def kDC : PyStr := ['D', 'C']

def kE3 : PyStr := ['E', '3']

def kDQ : PyStr := ['D', 'Q']

def kDU : PyStr := ['D', 'U']

def kEZ : PyStr := ['E', 'Z']

def kDB : PyStr := ['D', 'B']

def kDZ : PyStr := ['D', 'Z']

def kSevenE : PyStr := ['7', 'E']

def kE5 : PyStr := ['E', '5']

/-- What a Python f-string renders for `None`. -/
def NoneLit : PyStr := ['N', 'o', 'n', 'e']

/-- F-string rendering of an optional string attribute. -/
def optShow (o : Option PyStr) : PyStr :=
  match o with
  | none => NoneLit
  | some v => v

/-- The Gender enum values. -/
def genderCodes : List PyStr := [['0'], ['1'], ['2']]

/-- The PrescriptionServiceReferenceNumberQualifier enum values. -/
def rxRefQualCodes : List PyStr := [['0', '1'], ['0', '2'], ['0', '3']]

/-- The ProductServiceIdQualifier enum values. -/
def productQualCodes : List PyStr :=
  [['0', '0'], ['0', '1'], ['0', '2'], ['0', '3'], ['0', '4'], ['0', '6'],
   ['0', '7'], ['0', '8'], ['0', '9'], ['1', '0'], ['1', '1'], ['1', '2'],
   ['1', '5'], ['2', '8'], ['2', '9'], ['3', '0'], ['3', '1'], ['3', '2'],
   ['3', '3'], ['3', '4'], ['3', '6'], ['4', '2'], ['4', '3'], ['4', '4'],
   ['4', '5'], ['9', '9']]

/-- The SpecialPackagingIndicator enum values. -/
def spiCodes : List PyStr :=
  [['0'], ['1'], ['2'], ['3'], ['4'], ['5'], ['6'], ['7'], ['8']]

/-- Regex `^\d{12}$`. -/
def digits12 (l : PyStr) : Bool := l.length = 12 && allDigits l

/-- Regex `^[A-Za-z0-9]{1,19}$`. -/
def alnum1to19 (l : PyStr) : Bool :=
  1 ≤ l.length && l.length ≤ 19 && l.all (fun c => c.isAlphanum)

/-- Regex `^.{2}$` (`.` does not match a newline). -/
def len2NoNL (l : PyStr) : Bool := l.length = 2 && l.all (fun c => c ≠ '
')

/-- Regex `^\d+[A-IJ-R{}]$` (`[A-IJ-R]` is the contiguous range
`A`-`R`). -/
def overpunchShape (l : PyStr) : Bool :=
  2 ≤ l.length && allDigits l.dropLast &&
  (match l.getLast? with
   | some c => ('A' ≤ c && c ≤ 'R') || c = '{' || c = '}'
   | none => false)

/-- The `normalize_qualifier` pre-validator of `ClaimSegment`: a
one-character digit string is zero-filled to two characters. -/
def normalizeQual (v : PyStr) : PyStr :=
  match v with
  | [c] => if c.isDigit then ['0', c] else [c]
  | _ => v

structure InsuranceSeg where
  segment_id : PyStr
  first_name : PyStr
  last_name : PyStr
  person_code : PyStr
  cardholder_id : PyStr
  internal_control_number : PyStr
deriving DecidableEq, Repr

structure PatientSeg where
  segment_id : PyStr
  dob : PyDateTime
  patient_gender : PyStr
  last_name : PyStr
  first_name : PyStr
  patient_zip : PyStr
deriving DecidableEq, Repr

structure ClaimSeg where
  segment_id : PyStr
  daw_product_selection_code : PyStr
  date_prescription_written : PyStr
  days_supply : PyStr
  other_coverage_code : Option PyStr
  prescription_origin_code : PyStr
  procedure_modifiers : PyStr
  prescription_service_reference_number : PyStr
  prescription_service_reference_number_qualifier : PyStr
  product_service_id : PyStr
  product_service_id_qualifier : PyStr
  quantity_dispensed : PyStr
  refills_authorized : PyStr
  fill_number : PyStr
  number_authorized_refills : PyStr
  special_packaging_indicator : Option PyStr
deriving DecidableEq, Repr

structure PricingSeg where
  segment_id : PyStr
  ingredient_cost_submitted : PyStr
  dispensing_fee_submitted : PyStr
  professional_service_fee_submitted : Option PyStr
  gross_amount_due : PyStr
  other_amount_claimed : PyStr
deriving DecidableEq, Repr

structure PrescriberSeg where
  segment_id : PyStr
  prescriber_id_qualifier : PyStr
  prescriber_id : PyStr
deriving DecidableEq, Repr

structure PharmacySeg where
  segment_id : PyStr
  group_id : PyStr
deriving DecidableEq, Repr

structure ClinicalSeg where
  segment_id : PyStr
  other_payer_coverage_type : PyStr
  other_payer_id_qualifier : PyStr
deriving DecidableEq, Repr

/-- The `values` list of `InsuranceSegment.serialize`. -/
def insValues (s : InsuranceSeg) : List PyStr :=
  [s.segment_id, kC2 ++ s.internal_control_number, kC1 ++ s.first_name,
   kC3 ++ s.person_code, kA6 ++ s.cardholder_id, kA7 ++ s.last_name]

/-- `InsuranceSegment.serialize`. -/
def insSerialize (s : InsuranceSeg) : PyStr := FSc :: pyJoin FSc (insValues s)

/-- The `values` list of `PatientSegment.serialize`. -/
def patValues (s : PatientSeg) : List PyStr :=
  [s.segment_id, kC4 ++ strftimeYmd s.dob, kC5 ++ s.patient_gender,
   kCA ++ s.last_name, kCB ++ s.first_name, kCP ++ s.patient_zip]

/-- `PatientSegment.serialize`. -/
def patSerialize (s : PatientSeg) : PyStr := FSc :: pyJoin FSc (patValues s)

/-- The `values` list of `ClaimSegment.serialize` (source ordering). -/
def clmValues (s : ClaimSeg) : List PyStr :=
  [s.segment_id,
   kEM ++ s.prescription_service_reference_number_qualifier,
   kD2 ++ s.prescription_service_reference_number,
   kE1 ++ s.product_service_id_qualifier,
   kD7 ++ s.product_service_id,
   kSE ++ s.procedure_modifiers,
   kE7 ++ s.quantity_dispensed,
   kD3 ++ s.fill_number,
   kD5 ++ s.days_supply,
   kD6 ++ s.refills_authorized,
   kD8 ++ s.daw_product_selection_code,
   kDE ++ s.date_prescription_written,
   kDF ++ s.number_authorized_refills,
   kDJ ++ s.prescription_origin_code,
   kDT ++ optShow s.special_packaging_indicator,
   kEB ++ optShow s.other_coverage_code]

/-- `ClaimSegment.serialize`. -/
def clmSerialize (s : ClaimSeg) : PyStr := FSc :: pyJoin FSc (clmValues s)

/-- The `values` list of `PricingSegment.serialize`. -/
def prcValues (s : PricingSeg) : List PyStr :=
  [s.segment_id,
   kD9 ++ s.ingredient_cost_submitted,
   kDC ++ s.dispensing_fee_submitted,
   kE3 ++ optShow s.professional_service_fee_submitted,
   kDQ ++ s.gross_amount_due,
   kDU ++ s.other_amount_claimed]

/-- `PricingSegment.serialize`. -/
def prcSerialize (s : PricingSeg) : PyStr := FSc :: pyJoin FSc (prcValues s)

/-- The `values` list of `PrescriberSegment.serialize`. -/
def preValues (s : PrescriberSeg) : List PyStr :=
  [s.segment_id, kEZ ++ s.prescriber_id_qualifier, kDB ++ s.prescriber_id]

/-- `PrescriberSegment.serialize`. -/
def preSerialize (s : PrescriberSeg) : PyStr := FSc :: pyJoin FSc (preValues s)

/-- The `values` list of `PharmacyProviderSegment.serialize`. -/
def phaValues (s : PharmacySeg) : List PyStr :=
  [s.segment_id, kDZ ++ s.group_id]

/-- `PharmacyProviderSegment.serialize`. -/
def phaSerialize (s : PharmacySeg) : PyStr := FSc :: pyJoin FSc (phaValues s)

/-- The `values` list of `ClinicalSegment.serialize`. -/
def cliValues (s : ClinicalSeg) : List PyStr :=
  [s.segment_id, kSevenE ++ s.other_payer_coverage_type,
   kE5 ++ s.other_payer_id_qualifier]

/-- `ClinicalSegment.serialize`. -/
def cliSerialize (s : ClinicalSeg) : PyStr := FSc :: pyJoin FSc (cliValues s)

/-- `map_values_to_keys` restricted to one two-character key: the dict
comprehension keeps, for each known key, the tail of the last piece
carrying that key.  A piece whose first two characters are not a key of
the segment's mapping contributes nothing. -/
def getField (key : PyStr) (vs : List PyStr) : Option PyStr :=
  ((vs.filter (fun v => v.take 2 = key)).getLast?).map (fun v => v.drop 2)

/-- A required pydantic field: missing keyword raises a validation
error. -/
def requireF (o : Option PyStr) : Except PErr PyStr :=
  match o with
  | some v => .ok v
  | none => .error .validationError

/-- Pydantic shape check. -/
def ensure (b : Bool) : Except PErr Unit :=
  if b then .ok () else .error .validationError

/-- `InsuranceSegment(**map_values_to_keys(...))`. -/
def insFromValues (vs : List PyStr) : Except PErr InsuranceSeg := do
  let fn ← requireF (getField kC1 vs)
  let icn ← requireF (getField kC2 vs)
  let pc ← requireF (getField kC3 vs)
  let ci ← requireF (getField kA6 vs)
  let ln ← requireF (getField kA7 vs)
  return ⟨AM04s, fn, ln, pc, ci, icn⟩

/-- `PatientSegment(**map_values_to_keys(...))`. -/
def patFromValues (vs : List PyStr) : Except PErr PatientSeg := do
  let dobs ← requireF (getField kC4 vs)
  let dob ← match strptimeYmd dobs with
    | some d => Except.ok d
    | none => Except.error .validationError
  let g ← requireF (getField kC5 vs)
  ensure (decide (g ∈ genderCodes))
  let ln ← requireF (getField kCA vs)
  let fn ← requireF (getField kCB vs)
  let zip ← requireF (getField kCP vs)
  return ⟨AM01s, dob, g, ln, fn, zip⟩

/-- `ClaimSegment(**map_values_to_keys(...))`. -/
def clmFromValues (vs : List PyStr) : Except PErr ClaimSeg := do
  let daw ← requireF (getField kD8 vs)
  let dpw ← requireF (getField kDE vs)
  let ds ← requireF (getField kD5 vs)
  let occ := getField kEB vs
  let poc ← requireF (getField kDJ vs)
  let pm ← requireF (getField kSE vs)
  ensure (len2NoNL pm)
  let psrn ← requireF (getField kD2 vs)
  ensure (digits12 psrn)
  let q0 ← requireF (getField kEM vs)
  let q := normalizeQual q0
  ensure (decide (q ∈ rxRefQualCodes))
  let psid ← requireF (getField kD7 vs)
  ensure (alnum1to19 psid)
  let pq ← requireF (getField kE1 vs)
  ensure (decide (pq ∈ productQualCodes))
  let qd ← requireF (getField kE7 vs)
  let ra ← requireF (getField kD6 vs)
  let fnum ← requireF (getField kD3 vs)
  let nar ← requireF (getField kDF vs)
  let spi ← match getField kDT vs with
    | none => Except.ok none
    | some v =>
      if v ∈ spiCodes then Except.ok (some v)
      else Except.error .validationError
  return ⟨AM07s, daw, dpw, ds, occ, poc, pm, psrn, q, psid, pq, qd, ra, fnum,
          nar, spi⟩

/-- `PricingSegment(**map_values_to_keys(...))`. -/
def prcFromValues (vs : List PyStr) : Except PErr PricingSeg := do
  let ics ← requireF (getField kD9 vs)
  ensure (overpunchShape ics)
  let dfs ← requireF (getField kDC vs)
  ensure (overpunchShape dfs)
  let psf ← match getField kE3 vs with
    | none => Except.ok none
    | some v =>
      if overpunchShape v then Except.ok (some v)
      else Except.error .validationError
  let gad ← requireF (getField kDQ vs)
  ensure (overpunchShape gad)
  let oac ← requireF (getField kDU vs)
  ensure (overpunchShape oac)
  return ⟨AM11s, ics, dfs, psf, gad, oac⟩

/-- `PrescriberSegment(**map_values_to_keys(...))`. -/
def preFromValues (vs : List PyStr) : Except PErr PrescriberSeg := do
  let pq ← requireF (getField kEZ vs)
  let pid ← requireF (getField kDB vs)
  return ⟨AM03s, pq, pid⟩

/-- `PharmacyProviderSegment(**map_values_to_keys(...))`. -/
def phaFromValues (vs : List PyStr) : Except PErr PharmacySeg := do
  let gid ← requireF (getField kDZ vs)
  return ⟨AM06s, gid⟩

/-- `ClinicalSegment(**map_values_to_keys(...))`. -/
def cliFromValues (vs : List PyStr) : Except PErr ClinicalSeg := do
  let ct ← requireF (getField kSevenE vs)
  let oq ← requireF (getField kE5 vs)
  return ⟨AM08s, ct, oq⟩

/-- Tagged union of the seven segment variants. -/
inductive Segment where
  | ins (s : InsuranceSeg)
  | pat (s : PatientSeg)
  | clm (s : ClaimSeg)
  | prc (s : PricingSeg)
  | pre (s : PrescriberSeg)
  | pha (s : PharmacySeg)
  | cli (s : ClinicalSeg)
deriving DecidableEq, Repr

/-- The body of `parse_segment` after the `split`: match the segment
identifier against the registered classes in source order, build the
matched class from the remaining pieces, and yield `none` for an
unknown identifier. -/
def parseSegmentPieces (ps : List PyStr) : Except PErr (Option Segment) :=
  match ps with
  | [] => .ok none
  | sid :: vs =>
    if sid = AM04s then (insFromValues vs).map (fun s => some (.ins s))
    else if sid = AM01s then (patFromValues vs).map (fun s => some (.pat s))
    else if sid = AM07s then (clmFromValues vs).map (fun s => some (.clm s))
    else if sid = AM11s then (prcFromValues vs).map (fun s => some (.prc s))
    else if sid = AM03s then (preFromValues vs).map (fun s => some (.pre s))
    else if sid = AM06s then (phaFromValues vs).map (fun s => some (.pha s))
    else if sid = AM08s then (cliFromValues vs).map (fun s => some (.cli s))
    else .ok none

/-- `parse_segment(raw_segment)`: empty input yields `None`, otherwise
the raw segment is split on the field separator and dispatched. -/
def parseSegment (raw : PyStr) : Except PErr (Option Segment) :=
  if raw = [] then .ok none
  else parseSegmentPieces (splitOnChar FSc raw)

/-! ### The claim aggregator (`ClaimModel`) -/

/-- The `ClaimModel` pydantic model of `ncpdp_parser.py`: four required
segments, three optional ones. -/
structure ClaimModel where
  header : Header
  insurance : InsuranceSeg
  patient : PatientSeg
  claim : ClaimSeg
  pricing : PricingSeg
  prescriber : Option PrescriberSeg
  pharmacy_provider : Option PharmacySeg
  clinical : Option ClinicalSeg
deriving DecidableEq, Repr

/-- The `claim_data` dict of `ClaimModel.from_segments` (header slot
aside). -/
structure Slots where
  ins : Option InsuranceSeg
  pat : Option PatientSeg
  clm : Option ClaimSeg
  prc : Option PricingSeg
  pre : Option PrescriberSeg
  pha : Option PharmacySeg
  cli : Option ClinicalSeg
deriving DecidableEq, Repr

def emptySlots : Slots := ⟨none, none, none, none, none, none, none⟩

/-- One iteration of the `for segment in segments` loop of
`from_segments`: the matching slot is overwritten. -/
def assignSeg (st : Slots) : Segment → Slots
  | .ins s => { st with ins := some s }
  | .pat s => { st with pat := some s }
  | .clm s => { st with clm := some s }
  | .prc s => { st with prc := some s }
  | .pre s => { st with pre := some s }
  | .pha s => { st with pha := some s }
  | .cli s => { st with cli := some s }

/-- `ClaimModel.from_segments`: sweep the segments into the slots (a
later segment of the same type overwrites an earlier one), then
construct the model; a missing required slot is a missing pydantic
field and raises a validation error. -/
def fromSegments (h : Header) (segs : List Segment) : Except PErr ClaimModel :=
  let st := segs.foldl assignSeg emptySlots
  match st.ins, st.pat, st.clm, st.prc with
  | some i, some p, some c, some pr =>
    .ok ⟨h, i, p, c, pr, st.pre, st.pha, st.cli⟩
  | _, _, _, _ => .error .validationError

/-- Python `list.insert(idx, x)` (clamping like Python). -/
def listInsertIdx : Nat → PyStr → List PyStr → List PyStr
  | 0, x, l => x :: l
  | _ + 1, x, [] => [x]
  | n + 1, x, a :: t => a :: listInsertIdx n x t

/-- `ClaimModel.serialize`: the header and the present segments of
`[insurance, claim, pricing, prescriber, pharmacy_provider, clinical]`
(the required three are always present), then
`segments.insert(2, patient.serialize() + GROUP_SEPARATOR)`, joined by
the segment separator. -/
def serializeClaim (m : ClaimModel) : Except PErr PyStr := do
  let hdrS ← headerSerialize m.header
  let base := hdrS :: insSerialize m.insurance :: clmSerialize m.claim ::
    prcSerialize m.pricing ::
    ((m.prescriber.map preSerialize).toList ++
     (m.pharmacy_provider.map phaSerialize).toList ++
     (m.clinical.map cliSerialize).toList)
  return pyJoin RSc (listInsertIdx 2 (patSerialize m.patient ++ [GSc]) base)

/-- Left-to-right effectful map: the list comprehension over
`parse_segment` results in `from_file` (the first raised error
propagates). -/
def pyMapM (f : PyStr → Except PErr (Option Segment)) :
    List PyStr → Except PErr (List (Option Segment))
  | [] => .ok []
  | r :: rs => do
    let s ← f r
    let ss ← pyMapM f rs
    return s :: ss

/-- `ClaimModel.from_file` over the file's text: split on the segment
separator, parse the first piece as the header, strip and parse the
remaining pieces as segments, drop the `None`s, and aggregate. -/
def fromString (content : PyStr) : Except PErr ClaimModel := do
  let parts := splitOnChar RSc content
  let h ← headerParse (parts.headD [])
  let sgs ← pyMapM (fun r => parseSegment (pyStrip r)) parts.tail
  fromSegments h (sgs.filterMap id)

/-- The nine padded blocks of `headerSerialize`, as a plain
concatenation (serialization cannot fail once the field lengths fit
their columns). -/
def headerBlocks (h : Header) : PyStr :=
  pyLJust 6 h.rxbin ++ (pyRJust 2 h.version ++ (pyRJust 2 h.transaction_code ++
  (pyLJust 10 (h.pcn.getD []) ++ (pyRJust 1 h.transaction_count ++
  (pyRJust 2 h.service_provider_id_qual ++ (pyLJust 15 (h.service_provider_id.getD []) ++
  (pyRJust 8 h.service_date ++ pyLJust 10 (h.certification_id.getD []))))))))

/-! ### Wire-safety predicates

These predicates delimit the models whose attribute values can live on
the wire unchanged: no separator bytes inside values (the format has no
escaping) and no whitespace at the ends that the parser's `strip()`
calls would eat. -/

/-- The value contains none of the three separator bytes. -/
def sepFree (v : PyStr) : Bool := v.all (fun c => c ≠ FSc && c ≠ GSc && c ≠ RSc)

/-- The last character (if any) is not Python whitespace. -/
def endNoWS (v : PyStr) : Bool := v.getLast?.all (fun c => !isPySpace c)

/-- The first character (if any) is not Python whitespace. -/
def headNoWS (v : PyStr) : Bool := v.head?.all (fun c => !isPySpace c)

/-- Neither end is Python whitespace. -/
def noEdgeWS (v : PyStr) : Bool := headNoWS v && endNoWS v

/-- A present optional header field round-trips: non-empty, clean ends,
separator-free. -/
def optPresentOk (v : Option PyStr) : Bool :=
  match v with
  | none => true
  | some p => !p.isEmpty && noEdgeWS p && sepFree p

/-- Header round-trip safety: pydantic-valid with round-trippable
optional fields. -/
def headerRT (h : Header) : Bool :=
  headerFieldsValid h && optPresentOk h.pcn && optPresentOk h.service_provider_id &&
  optPresentOk h.certification_id

/-- A free-text segment attribute that is not the last piece of its
segment: it only needs to be separator-free. -/
def fieldOk (v : PyStr) : Bool := sepFree v

/-- A free-text segment attribute that ends its segment's serialized
form: separator-free and without trailing whitespace (the outer
`strip()` would eat it). -/
def lastFieldOk (v : PyStr) : Bool := sepFree v && endNoWS v

/-- Round-trip safety for an insurance segment. -/
def insSafe (s : InsuranceSeg) : Bool :=
  s.segment_id = AM04s && fieldOk s.first_name && fieldOk s.person_code &&
  fieldOk s.cardholder_id && fieldOk s.internal_control_number &&
  lastFieldOk s.last_name

/-- A datetime representable by a strict `%Y%m%d` round trip: a real
calendar date with a four-digit year and zero time of day. -/
def dobSafe (d : PyDateTime) : Bool :=
  1000 ≤ d.year && d.year ≤ 9999 && 1 ≤ d.month && d.month ≤ 12 &&
  1 ≤ d.day && d.day ≤ daysInMonth d.year d.month &&
  d.hour = 0 && d.minute = 0 && d.second = 0 && d.microsecond = 0

/-- Round-trip safety for a patient segment. -/
def patSafe (s : PatientSeg) : Bool :=
  s.segment_id = AM01s && dobSafe s.dob && decide (s.patient_gender ∈ genderCodes) &&
  fieldOk s.last_name && fieldOk s.first_name && lastFieldOk s.patient_zip

/-- Round-trip safety for a claim segment: the pydantic shapes hold and
both optional attributes are present (an absent one serializes as the
literal `None`). -/
def clmSafe (s : ClaimSeg) : Bool :=
  s.segment_id = AM07s && fieldOk s.daw_product_selection_code &&
  fieldOk s.date_prescription_written && fieldOk s.days_supply &&
  (match s.other_coverage_code with
   | some v => lastFieldOk v
   | none => false) &&
  fieldOk s.prescription_origin_code &&
  len2NoNL s.procedure_modifiers && fieldOk s.procedure_modifiers &&
  digits12 s.prescription_service_reference_number &&
  decide (s.prescription_service_reference_number_qualifier ∈ rxRefQualCodes) &&
  alnum1to19 s.product_service_id &&
  decide (s.product_service_id_qualifier ∈ productQualCodes) &&
  fieldOk s.quantity_dispensed && fieldOk s.refills_authorized &&
  fieldOk s.fill_number && fieldOk s.number_authorized_refills &&
  (match s.special_packaging_indicator with
   | some v => decide (v ∈ spiCodes)
   | none => false)

/-- Round-trip safety for a pricing segment: the overpunch shapes hold
(they already exclude separators and whitespace) and the optional fee
is present. -/
def prcSafe (s : PricingSeg) : Bool :=
  s.segment_id = AM11s && overpunchShape s.ingredient_cost_submitted &&
  overpunchShape s.dispensing_fee_submitted &&
  (match s.professional_service_fee_submitted with
   | some v => overpunchShape v
   | none => false) &&
  overpunchShape s.gross_amount_due && overpunchShape s.other_amount_claimed

/-- Round-trip safety for a prescriber segment. -/
def preSafe (s : PrescriberSeg) : Bool :=
  s.segment_id = AM03s && fieldOk s.prescriber_id_qualifier &&
  lastFieldOk s.prescriber_id

/-- Round-trip safety for a pharmacy provider segment. -/
def phaSafe (s : PharmacySeg) : Bool :=
  s.segment_id = AM06s && lastFieldOk s.group_id

/-- Round-trip safety for a clinical segment. -/
def cliSafe (s : ClinicalSeg) : Bool :=
  s.segment_id = AM08s && fieldOk s.other_payer_coverage_type &&
  lastFieldOk s.other_payer_id_qualifier

/-- Round-trip safety for a whole claim model. -/
def claimSafe (m : ClaimModel) : Bool :=
  headerRT m.header && insSafe m.insurance && patSafe m.patient &&
  clmSafe m.claim && prcSafe m.pricing &&
  (match m.prescriber with
   | some s => preSafe s
   | none => true) &&
  (match m.pharmacy_provider with
   | some s => phaSafe s
   | none => true) &&
  (match m.clinical with
   | some s => cliSafe s
   | none => true)

/-- The canonical padded layout of a 56-character header string: every
field block equals its stripped content re-padded on the serializer's
side (left-justification for the right-padded fields `rxbin`, `pcn`,
`service_provider_id`, `certification_id`; right-justification for the
others, in particular for a one-digit
`service_provider_id_qualifier`). -/
def blockAt (start len : Nat) (s : PyStr) : PyStr := (s.drop start).take len

def canonicalBlockL (start len : Nat) (s : PyStr) : Bool :=
  blockAt start len s = pyRJust len (pyStrip (blockAt start len s))

def canonicalBlockR (start len : Nat) (s : PyStr) : Bool :=
  blockAt start len s = pyLJust len (pyStrip (blockAt start len s))

/-- All nine header fields are in canonical padded form. -/
def headerCanonical (s : PyStr) : Bool :=
  canonicalBlockR 0 6 s && canonicalBlockL 6 2 s && canonicalBlockL 8 2 s &&
  canonicalBlockR 10 10 s && canonicalBlockL 20 1 s && canonicalBlockL 21 2 s &&
  canonicalBlockR 23 15 s && canonicalBlockL 38 8 s && canonicalBlockR 46 10 s

/-! ### Concrete sample data -/

/-- A concrete valid header. -/
def sampleHeader : Header :=
  { rxbin := (r"024368").toList
    version := ['D', '0']
    transaction_code := ['B', '1']
    pcn := none
    transaction_count := ['1']
    service_provider_id_qual := ['0', '1']
    service_provider_id := (r"1790887081").toList
    service_date := (r"20231110").toList
    certification_id := none }

/-- A concrete insurance segment. -/
def sampleIns : InsuranceSeg :=
  ⟨AM04s, (r"JOHN").toList, (r"DOE").toList, (r"001").toList,
   (r"CARD1").toList, (r"ICN1").toList⟩

/-- A second, different insurance segment. -/
def sampleIns2 : InsuranceSeg :=
  ⟨AM04s, (r"MARY").toList, (r"ROE").toList, (r"002").toList,
   (r"CARD2").toList, (r"ICN2").toList⟩

/-- A concrete patient segment. -/
def samplePat : PatientSeg :=
  ⟨AM01s, ⟨1980, 1, 15, 0, 0, 0, 0⟩, ['1'], (r"SMITH").toList,
   (r"JANE").toList, (r"12345").toList⟩

/-- A concrete claim segment with both optional attributes present. -/
def sampleClm : ClaimSeg :=
  { segment_id := AM07s
    daw_product_selection_code := ['0']
    date_prescription_written := (r"20231101").toList
    days_supply := (r"30").toList
    other_coverage_code := some ['1']
    prescription_origin_code := ['1']
    procedure_modifiers := (r"AB").toList
    prescription_service_reference_number := (r"123456789012").toList
    prescription_service_reference_number_qualifier := ['0', '1']
    product_service_id := (r"12345678901").toList
    product_service_id_qualifier := ['0', '3']
    quantity_dispensed := (r"10").toList
    refills_authorized := ['5']
    fill_number := ['0']
    number_authorized_refills := ['5']
    special_packaging_indicator := some ['0'] }

/-- A concrete pricing segment with the optional fee present. -/
def samplePrc : PricingSeg :=
  ⟨AM11s, (r"125C").toList, (r"1A").toList, some ((r"2B").toList),
   (r"150C").toList, (r"0").toList ++ ['{']⟩

/-- A concrete prescriber segment. -/
def samplePre : PrescriberSeg := ⟨AM03s, ['0', '1'], (r"AB123").toList⟩

/-- A concrete pharmacy provider segment. -/
def samplePha : PharmacySeg := ⟨AM06s, (r"G1").toList⟩

/-- A concrete clinical segment. -/
def sampleCli : ClinicalSeg := ⟨AM08s, ['0', '1'], ['0', '2']⟩

/-- A concrete full claim with every optional segment and every
optional attribute present. -/
def sampleClaim : ClaimModel :=
  ⟨sampleHeader, sampleIns, samplePat, sampleClm, samplePrc,
   some samplePre, some samplePha, some sampleCli⟩

/-- The same claim with `other_coverage_code` absent. -/
def sampleClaimNoOcc : ClaimModel :=
  { sampleClaim with claim := { sampleClm with other_coverage_code := none } }

/-! ### Projections, key tables and further concrete data -/

/-- Insurance projection of a segment variant. -/
def segIns : Segment → Option InsuranceSeg
  | .ins s => some s
  | _ => none

/-- Patient projection of a segment variant. -/
def segPat : Segment → Option PatientSeg
  | .pat s => some s
  | _ => none

/-- Claim projection of a segment variant. -/
def segClm : Segment → Option ClaimSeg
  | .clm s => some s
  | _ => none

/-- Pricing projection of a segment variant. -/
def segPrc : Segment → Option PricingSeg
  | .prc s => some s
  | _ => none

/-- Prescriber projection of a segment variant. -/
def segPre : Segment → Option PrescriberSeg
  | .pre s => some s
  | _ => none

/-- Pharmacy-provider projection of a segment variant. -/
def segPha : Segment → Option PharmacySeg
  | .pha s => some s
  | _ => none

/-- Clinical projection of a segment variant. -/
def segCli : Segment → Option ClinicalSeg
  | .cli s => some s
  | _ => none

/-- The value a left-to-right overwrite sweep leaves behind for one
projection: the last projected value, or else the initial one. -/
def lastOf {α : Type} (f : Segment → Option α) (segs : List Segment)
    (init : Option α) : Option α :=
  segs.foldl (fun acc sg => match f sg with | some x => some x | none => acc) init

/-- The segment identifiers registered in `parse_segment`'s
`segment_classes` list. -/
def knownIds : List PyStr :=
  [AM04s, AM01s, AM07s, AM11s, AM03s, AM06s, AM08s]

/-- The key set of each registered segment class's `_key_mapping`
(source order); unregistered identifiers have no keys. -/
def keysOf (sid : PyStr) : List PyStr :=
  if sid = AM04s then [kC1, kC2, kC3, kA6, kA7]
  else if sid = AM01s then [kC4, kC5, kCA, kCB, kCP]
  else if sid = AM07s then
    [kEM, kD2, kE1, kD7, kE7, kD3, kSE, kD5, kD8, kDE, kD6, kDF, kDJ, kDT, kEB]
  else if sid = AM11s then [kD9, kDC, kE3, kDQ, kDU]
  else if sid = AM03s then [kEZ, kDB]
  else if sid = AM06s then [kDZ]
  else if sid = AM08s then [kSevenE, kE5]
  else []

/-- A parsed-segment list carrying two insurance variants besides the
other required variants and a prescriber. -/
def c5segs : List Segment :=
  [.ins sampleIns, .ins sampleIns2, .pat samplePat, .clm sampleClm,
   .prc samplePrc, .pre samplePre]

/-- A 56-character header string whose one-digit
`service_provider_id_qualifier` occupies column 21 with the pad space on
its right (column 22): the slices validate, but the serializer re-pads
that field on the left. -/
def c2str : PyStr :=
  (r"024368D0B1          15 1790887081     20231110          ").toList

/-- The sample claim segment with both optional attributes absent. -/
def c10clm : ClaimSeg :=
  { sampleClm with other_coverage_code := none,
                   special_packaging_indicator := none }

/-- The sample pricing segment with the optional fee absent. -/
def c10prc : PricingSeg :=
  { samplePrc with professional_service_fee_submitted := none }

/-- The sample claim with a group-separator byte inside a free-text
attribute (pydantic puts no character constraint on `first_name`). -/
def c6bad : ClaimModel :=
  { sampleClaim with insurance := { sampleIns with first_name := [GSc] } }

example : (serializeClaim sampleClaim).bind fromString = .ok sampleClaim := by decide

example :
    (serializeClaim sampleClaimNoOcc).bind fromString =
      .ok { sampleClaimNoOcc with
              claim := { sampleClaimNoOcc.claim with
                           other_coverage_code := some NoneLit } } := by decide

example :
    (serializeClaim
        { sampleClaim with
            claim := { sampleClm with special_packaging_indicator := none } }).bind
      fromString = .error .validationError := by decide

example :
    headerParse ((r"024368D0B1          1011790887081     20231110          ").toList) =
      .ok { rxbin := (r"024368").toList
            version := ['D', '0']
            transaction_code := ['B', '1']
            pcn := none
            transaction_count := ['1']
            service_provider_id_qual := ['0', '1']
            service_provider_id := (r"1790887081").toList
            service_date := (r"20231110").toList
            certification_id := none } := by decide

example :
    (headerParse ((r"024368D0B1          1011790887081     20231110          ").toList)).map
        headerSerialize =
      .ok (.ok ((r"024368D0B1          1011790887081     20231110          ").toList)) := by
  decide

example : headerParse ((r"024368D0B1").toList) = .error .shortInput := by decide

example : encodeOverpunch 0 = ['}'] := by decide
example : encodeOverpunch 10 = ['1', '}'] := by decide
example : encodeOverpunch (-1253) = ['1', '2', '5', 'L'] := by decide
example : decodeOverpunch ['1', '2', '5', 'L'] = .ok (some (-1253)) := by decide
example : decodeOverpunch ['0', '{'] = .ok (some 0) := by decide
example : decodeOverpunch ['1', '}'] = .ok (some (-10)) := by decide
example : decodeOverpunch ['1', 'a'] = .ok (some 11) := by decide
example : decodeOverpunch ['+', '1', '{'] = .ok (some 10) := by decide
example : decodeOverpunch ['x', '1', '{'] = .error .valueError := by decide


/-! ### String lemmas -/

theorem getLast?_or {α : Type} : ∀ (l : List α) (x : α),
    (x :: l).getLast? = l.getLast?.or (some x)
  | [], _ => rfl
  | y :: t, x => by
    rw [List.getLast?_cons_cons, getLast?_or t y]
    cases h : t.getLast? <;> simp [Option.or]

theorem stripLeft_cons (c : Char) (l : PyStr) :
    stripLeft (c :: l) = if isPySpace c then stripLeft l else c :: l := by
  simp only [stripLeft, List.dropWhile_cons]

theorem stripRight_concat (l : PyStr) (c : Char) :
    stripRight (l ++ [c]) = if isPySpace c then stripRight l else l ++ [c] := by
  simp only [stripRight, List.reverse_append, List.reverse_cons, List.reverse_nil,
    List.nil_append, List.cons_append, List.dropWhile_cons]
  split <;> simp

theorem stripRight_eq_self {l : PyStr} (h : endNoWS l = true) : stripRight l = l := by
  rcases List.eq_nil_or_concat l with rfl | ⟨l', c, rfl⟩
  · rfl
  · simp only [List.concat_eq_append] at h ⊢
    have hc : isPySpace c = false := by
      simpa [endNoWS, List.getLast?_concat] using h
    rw [stripRight_concat, hc]
    simp

theorem stripLeft_eq_self {l : PyStr} (h : headNoWS l = true) : stripLeft l = l := by
  cases l with
  | nil => rfl
  | cons c t =>
    have hc : isPySpace c = false := by simpa [headNoWS] using h
    rw [stripLeft_cons, hc]
    simp

theorem noEdgeWS_head {l : PyStr} (h : noEdgeWS l = true) : headNoWS l = true := by
  simp [noEdgeWS] at h
  exact h.1

theorem noEdgeWS_end {l : PyStr} (h : noEdgeWS l = true) : endNoWS l = true := by
  simp [noEdgeWS] at h
  exact h.2

theorem pyStrip_eq_self {l : PyStr} (h : noEdgeWS l = true) : pyStrip l = l := by
  rw [pyStrip, stripRight_eq_self (noEdgeWS_end h), stripLeft_eq_self (noEdgeWS_head h)]

theorem stripLeft_replicate_append (n : Nat) (v : PyStr) :
    stripLeft (List.replicate n ' ' ++ v) = stripLeft v := by
  induction n with
  | zero => simp
  | succ k ih =>
    rw [List.replicate_succ, List.cons_append, stripLeft_cons]
    simp [ih, show isPySpace ' ' = true from rfl]

theorem stripRight_append_replicate (v : PyStr) (n : Nat) :
    stripRight (v ++ List.replicate n ' ') = stripRight v := by
  induction n with
  | zero => simp
  | succ k ih =>
    rw [List.replicate_succ', ← List.append_assoc, stripRight_concat]
    simp [ih, show isPySpace ' ' = true from rfl]

theorem pyStrip_replicate (n : Nat) : pyStrip (List.replicate n ' ') = [] := by
  have := stripRight_append_replicate [] n
  simp only [List.nil_append] at this
  rw [pyStrip, this]
  rfl

theorem pyStrip_pyRJust (w : Nat) {v : PyStr} (h : noEdgeWS v = true) :
    pyStrip (pyRJust w v) = v := by
  rcases List.eq_nil_or_concat v with rfl | ⟨v', c, rfl⟩
  · simpa [pyRJust] using pyStrip_replicate w
  · simp only [List.concat_eq_append] at h ⊢
    have hc : isPySpace c = false := by
      simpa [endNoWS, List.getLast?_concat] using noEdgeWS_end h
    rw [pyRJust, pyStrip, ← List.append_assoc, stripRight_concat, hc]
    simp only [Bool.false_eq_true, if_false, List.append_assoc]
    rw [stripLeft_replicate_append]
    exact stripLeft_eq_self (noEdgeWS_head h)

theorem pyStrip_pyLJust (w : Nat) {v : PyStr} (h : noEdgeWS v = true) :
    pyStrip (pyLJust w v) = v := by
  rw [pyLJust, pyStrip, stripRight_append_replicate,
    stripRight_eq_self (noEdgeWS_end h), stripLeft_eq_self (noEdgeWS_head h)]

theorem pyRJust_length {v : PyStr} {w : Nat} (h : v.length ≤ w) :
    (pyRJust w v).length = w := by
  simp [pyRJust]
  omega

theorem pyLJust_length {v : PyStr} {w : Nat} (h : v.length ≤ w) :
    (pyLJust w v).length = w := by
  simp [pyLJust]
  omega

theorem splitOnChar_cons (sep c : Char) (cs : PyStr) :
    splitOnChar sep (c :: cs) =
      match splitOnChar sep cs with
      | [] => [[c]]
      | h :: t => if c = sep then [] :: h :: t else (c :: h) :: t := rfl

theorem splitOnChar_ne_nil (sep : Char) : ∀ l : PyStr, splitOnChar sep l ≠ []
  | [] => by simp [splitOnChar]
  | c :: cs => by
    rw [splitOnChar_cons]
    cases h : splitOnChar sep cs with
    | nil => simp
    | cons a t => by_cases hc : c = sep <;> simp [hc]

theorem splitOnChar_not_mem {sep : Char} : ∀ {l : PyStr}, sep ∉ l →
    splitOnChar sep l = [l]
  | [], _ => rfl
  | c :: cs, h => by
    have hcs : sep ∉ cs := fun hm => h (List.mem_cons_of_mem _ hm)
    have hc : ¬ c = sep := fun e => h (e ▸ List.mem_cons_self c cs)
    rw [splitOnChar_cons, splitOnChar_not_mem hcs]
    simp [hc]

theorem splitOnChar_append {sep : Char} : ∀ {x : PyStr} (r : PyStr), sep ∉ x →
    splitOnChar sep (x ++ sep :: r) = x :: splitOnChar sep r
  | [], r, _ => by
    simp only [List.nil_append]
    rw [splitOnChar_cons]
    cases h : splitOnChar sep r with
    | nil => exact absurd h (splitOnChar_ne_nil sep r)
    | cons a t => simp
  | c :: x', r, h => by
    have hx' : sep ∉ x' := fun hm => h (List.mem_cons_of_mem _ hm)
    have hc : ¬ c = sep := fun e => h (e ▸ List.mem_cons_self c x')
    show splitOnChar sep (c :: (x' ++ sep :: r)) = (c :: x') :: splitOnChar sep r
    rw [splitOnChar_cons, splitOnChar_append r hx']
    simp [hc]

theorem splitOnChar_pyJoin {sep : Char} : ∀ {ps : List PyStr}, ps ≠ [] →
    (∀ p ∈ ps, sep ∉ p) → splitOnChar sep (pyJoin sep ps) = ps
  | [], h, _ => absurd rfl h
  | [x], _, hall => by
    simpa [pyJoin] using splitOnChar_not_mem (hall x (by simp))
  | x :: y :: t, _, hall => by
    show splitOnChar sep (x ++ sep :: pyJoin sep (y :: t)) = x :: (y :: t)
    rw [splitOnChar_append _ (hall x (by simp)),
      splitOnChar_pyJoin (by simp) (fun p hp => hall p (List.mem_cons_of_mem _ hp))]

/-! ### Character-class lemmas -/

theorem isPySpace_cases {c : Char} (h : isPySpace c = true) :
    c = ' ' ∨ c = '\t' ∨ c = '
' ∨ c = Char.ofNat 11 ∨ c = Char.ofNat 12 ∨
    c = '\r' ∨ c = FSc ∨ c = GSc ∨ c = RSc ∨ c = Char.ofNat 31 ∨
    c = Char.ofNat 0x85 ∨ c = Char.ofNat 0xa0 := by
  have h' := h
  simp only [isPySpace, FSc, GSc, RSc, Bool.or_eq_true, decide_eq_true_eq] at h'
  tauto

theorem not_pySpace_of_digit {c : Char} (h : c.isDigit = true) : isPySpace c = false := by
  cases hsp : isPySpace c
  · rfl
  · exfalso
    rcases isPySpace_cases hsp with rfl|rfl|rfl|rfl|rfl|rfl|rfl|rfl|rfl|rfl|rfl|rfl <;>
      exact absurd h (by decide)

theorem noEdgeWS_of_all {l : PyStr} (h : ∀ c ∈ l, isPySpace c = false) :
    noEdgeWS l = true := by
  have h1 : headNoWS l = true := by
    cases l with
    | nil => rfl
    | cons a t => simpa [headNoWS] using h a (by simp)
  have h2 : endNoWS l = true := by
    rcases List.eq_nil_or_concat l with rfl | ⟨l', c, rfl⟩
    · rfl
    · simp only [List.concat_eq_append] at h ⊢
      simpa [endNoWS, List.getLast?_concat] using h c (by simp)
  simp [noEdgeWS, h1, h2]

theorem noEdgeWS_allDigits {l : PyStr} (h : allDigits l = true) : noEdgeWS l = true := by
  refine noEdgeWS_of_all (fun c hc => not_pySpace_of_digit ?_)
  simp only [allDigits, List.all_eq_true] at h
  simpa using h c hc

/-! ### Strip idempotence -/

theorem headNoWS_stripLeft (l : PyStr) : headNoWS (stripLeft l) = true := by
  induction l with
  | nil => rfl
  | cons c t ih =>
    rw [stripLeft_cons]
    by_cases hc : isPySpace c = true
    · simpa [hc] using ih
    · simp only [Bool.not_eq_true] at hc
      simp [hc, headNoWS]

theorem endNoWS_stripLeft {l : PyStr} (h : endNoWS l = true) :
    endNoWS (stripLeft l) = true := by
  induction l with
  | nil => rfl
  | cons c t ih =>
    rw [stripLeft_cons]
    by_cases hc : isPySpace c = true
    · cases t with
      | nil => simp [endNoWS, hc] at h
      | cons y t' =>
        have : endNoWS (y :: t') = true := by
          simpa [endNoWS, List.getLast?_cons_cons] using h
        simpa [hc] using ih this
    · simp only [Bool.not_eq_true] at hc
      simpa [hc] using h

theorem endNoWS_stripRight (l : PyStr) : endNoWS (stripRight l) = true := by
  have hv := headNoWS_stripLeft l.reverse
  unfold headNoWS stripLeft at hv
  unfold endNoWS stripRight
  rw [List.getLast?_reverse]
  exact hv

theorem pyStrip_noEdge (l : PyStr) : noEdgeWS (pyStrip l) = true := by
  have h1 : headNoWS (pyStrip l) = true := headNoWS_stripLeft (stripRight l)
  have h2 : endNoWS (pyStrip l) = true := endNoWS_stripLeft (endNoWS_stripRight l)
  simp [noEdgeWS, h1, h2]

theorem pyStrip_idem (l : PyStr) : pyStrip (pyStrip l) = pyStrip l :=
  pyStrip_eq_self (pyStrip_noEdge l)

/-! ### Fixed-width slicing -/

theorem posSlice_eq (p : Pos) (s : PyStr) :
    posSlice p s = pyStrip (blockAt p.start p.len s) := rfl

theorem drop_append_len {x : PyStr} (rest : PyStr) (k : Nat) :
    (x ++ rest).drop (x.length + k) = rest.drop k := by
  induction x with
  | nil => simp
  | cons a t ih =>
    show ((a :: (t ++ rest)).drop (t.length + 1 + k)) = rest.drop k
    have harith : t.length + 1 + k = (t.length + k) + 1 := by omega
    rw [harith, List.drop_succ_cons, ih]

theorem blockAt_zero {mid : PyStr} (post : PyStr) {len : Nat} (h : mid.length = len) :
    blockAt 0 len (mid ++ post) = mid := by
  subst h
  simp [blockAt, List.take_left]

theorem blockAt_shift {x : PyStr} (st len : Nat) (rest : PyStr) :
    blockAt (x.length + st) len (x ++ rest) = blockAt st len rest := by
  simp [blockAt, drop_append_len]

/-! ### Header field-shape lemmas -/

theorem version_len2 {v : PyStr} (h : v ∈ versionCodes) : v.length = 2 := by
  fin_cases h <;> rfl

theorem version_noEdge {v : PyStr} (h : v ∈ versionCodes) : noEdgeWS v = true := by
  fin_cases h <;> decide

theorem tc_len2 {v : PyStr} (h : v ∈ transactionCodes) : v.length = 2 := by
  fin_cases h <;> rfl

theorem tc_noEdge {v : PyStr} (h : v ∈ transactionCodes) : noEdgeWS v = true := by
  fin_cases h <;> decide

theorem digits6_props {l : PyStr} (h : digits6 l = true) :
    l.length = 6 ∧ allDigits l = true := by
  simpa [digits6] using h

theorem count1to9_props {l : PyStr} (h : count1to9 l = true) :
    l.length = 1 ∧ allDigits l = true := by
  match l with
  | [] => simp [count1to9] at h
  | [c] =>
    simp only [count1to9, Bool.and_eq_true, decide_eq_true_eq] at h
    refine ⟨rfl, ?_⟩
    have h0 : ('0' : Char) ≤ c := le_trans (by decide) h.1
    simp [allDigits, Char.isDigit, h0, h.2]
    exact ⟨h0, h.2⟩
  | _ :: _ :: _ => simp [count1to9] at h

theorem digits1or2_props {l : PyStr} (h : digits1or2 l = true) :
    l.length ≤ 2 ∧ allDigits l = true := by
  simp only [digits1or2, Bool.and_eq_true, Bool.or_eq_true, decide_eq_true_eq] at h
  exact ⟨by omega, h.2⟩

theorem dateShape_props {l : PyStr} (h : dateShape l = true) :
    l.length = 8 ∧ allDigits l = true := by
  simp only [dateShape, Bool.and_eq_true, decide_eq_true_eq] at h
  exact ⟨h.1.1, h.1.2⟩

theorem optMaxLen_length {n : Nat} {v : Option PyStr} (h : optMaxLen n v = true) :
    (v.getD []).length ≤ n := by
  cases v with
  | none => simp
  | some p => simpa [optMaxLen] using h

theorem posPad_ok (p : Pos) (v : Option PyStr) (h : (v.getD []).length ≤ p.len) :
    posPad p v = .ok (if p.padding = .left then pyRJust p.len (v.getD [])
                      else pyLJust p.len (v.getD [])) := by
  unfold posPad
  rw [if_neg (by omega)]
  by_cases hp : p.padding = .left <;> simp [hp]

theorem headerSerialize_eq (h : Header) (hv : headerFieldsValid h = true) :
    headerSerialize h = .ok (headerBlocks h) := by
  simp only [headerFieldsValid, Bool.and_eq_true] at hv
  obtain ⟨⟨⟨⟨⟨⟨⟨⟨h1, h2⟩, h3⟩, h4⟩, h5⟩, h6⟩, h7⟩, h8⟩, h9⟩ := hv
  have l1 := (digits6_props h1).1
  have l2 := version_len2 (by simpa using h2)
  have l3 := tc_len2 (by simpa using h3)
  have l4 := optMaxLen_length h4
  have l5 := (count1to9_props h5).1
  have l6 := (digits1or2_props h6).1
  have l7 := optMaxLen_length h7
  have l8 := (dateShape_props h8).1
  have l9 := optMaxLen_length h9
  unfold headerSerialize
  rw [posPad_ok fmtRXBIN _ (by simpa using le_of_eq l1),
    posPad_ok fmtVERSION _ (by simpa using le_of_eq l2),
    posPad_ok fmtTRANSACTION_CODE _ (by simpa using le_of_eq l3),
    posPad_ok fmtPCN _ (by simpa using l4),
    posPad_ok fmtTRANSACTION_COUNT _ (by simpa using le_of_eq l5),
    posPad_ok fmtSERVICE_PROVIDER_ID_QUAL _ (by simpa using l6),
    posPad_ok fmtSERVICE_PROVIDER_ID _ (by simpa using l7),
    posPad_ok fmtSERVICE_DATE _ (by simpa using le_of_eq l8),
    posPad_ok fmtCERTIFICATION_ID _ (by simpa using l9)]
  simp only [fmtRXBIN, fmtVERSION, fmtTRANSACTION_CODE, fmtPCN,
    fmtTRANSACTION_COUNT, fmtSERVICE_PROVIDER_ID_QUAL, fmtSERVICE_PROVIDER_ID,
    fmtSERVICE_DATE, fmtCERTIFICATION_ID, Option.getD_some, List.append_assoc]
  rfl

theorem blockAt_zero' {mid : PyStr} {len : Nat} (h : mid.length = len) :
    blockAt 0 len mid = mid := by
  subst h
  simp [blockAt]

theorem blockAt_skip (x : PyStr) {w : Nat} (hw : x.length = w) (st len : Nat)
    (rest : PyStr) : blockAt (w + st) len (x ++ rest) = blockAt st len rest := by
  subst hw
  exact blockAt_shift st len rest

theorem headerRT_parse (h : Header) (hrt : headerRT h = true) :
    headerParse (headerBlocks h) = .ok h := by
  simp only [headerRT, Bool.and_eq_true] at hrt
  obtain ⟨⟨⟨hv, hpcn⟩, hspid⟩, hcert⟩ := hrt
  have hv' := hv
  simp only [headerFieldsValid, Bool.and_eq_true] at hv'
  obtain ⟨⟨⟨⟨⟨⟨⟨⟨h1, h2⟩, h3⟩, h4⟩, h5⟩, h6⟩, h7⟩, h8⟩, h9⟩ := hv'
  have d1 := digits6_props h1
  have m2 : h.version ∈ versionCodes := by simpa using h2
  have m3 : h.transaction_code ∈ transactionCodes := by simpa using h3
  have d5 := count1to9_props h5
  have d6 := digits1or2_props h6
  have d8 := dateShape_props h8
  have L1 : (pyLJust 6 h.rxbin).length = 6 := pyLJust_length (le_of_eq d1.1)
  have L2 : (pyRJust 2 h.version).length = 2 :=
    pyRJust_length (le_of_eq (version_len2 m2))
  have L3 : (pyRJust 2 h.transaction_code).length = 2 :=
    pyRJust_length (le_of_eq (tc_len2 m3))
  have L4 : (pyLJust 10 (h.pcn.getD [])).length = 10 :=
    pyLJust_length (optMaxLen_length h4)
  have L5 : (pyRJust 1 h.transaction_count).length = 1 :=
    pyRJust_length (le_of_eq d5.1)
  have L6 : (pyRJust 2 h.service_provider_id_qual).length = 2 := pyRJust_length d6.1
  have L7 : (pyLJust 15 (h.service_provider_id.getD [])).length = 15 :=
    pyLJust_length (optMaxLen_length h7)
  have L8 : (pyRJust 8 h.service_date).length = 8 := pyRJust_length (le_of_eq d8.1)
  have L9 : (pyLJust 10 (h.certification_id.getD [])).length = 10 :=
    pyLJust_length (optMaxLen_length h9)
  have Ltot : (headerBlocks h).length = 56 := by
    simp only [headerBlocks, List.length_append, L1, L2, L3, L4, L5, L6, L7, L8, L9]
  have e1 : posSlice fmtRXBIN (headerBlocks h) = h.rxbin := by
    rw [posSlice_eq]
    unfold headerBlocks
    show pyStrip (blockAt 0 6 _) = _
    rw [blockAt_zero _ L1, pyStrip_pyLJust 6 (noEdgeWS_allDigits d1.2)]
  have e2 : posSlice fmtVERSION (headerBlocks h) = h.version := by
    rw [posSlice_eq]
    unfold headerBlocks
    show pyStrip (blockAt (6 + 0) 2 _) = _
    rw [blockAt_skip _ L1, blockAt_zero _ L2, pyStrip_pyRJust 2 (version_noEdge m2)]
  have e3 : posSlice fmtTRANSACTION_CODE (headerBlocks h) = h.transaction_code := by
    rw [posSlice_eq]
    unfold headerBlocks
    show pyStrip (blockAt (6 + 2) 2 _) = _
    rw [blockAt_skip _ L1]
    show pyStrip (blockAt (2 + 0) 2 _) = _
    rw [blockAt_skip _ L2, blockAt_zero _ L3, pyStrip_pyRJust 2 (tc_noEdge m3)]
  have e4 : posSlice fmtPCN (headerBlocks h) = pyStrip (pyLJust 10 (h.pcn.getD [])) := by
    rw [posSlice_eq]
    unfold headerBlocks
    show pyStrip (blockAt (6 + 4) 10 _) = _
    rw [blockAt_skip _ L1]
    show pyStrip (blockAt (2 + 2) 10 _) = _
    rw [blockAt_skip _ L2]
    show pyStrip (blockAt (2 + 0) 10 _) = _
    rw [blockAt_skip _ L3, blockAt_zero _ L4]
  have e5 : posSlice fmtTRANSACTION_COUNT (headerBlocks h) = h.transaction_count := by
    rw [posSlice_eq]
    unfold headerBlocks
    show pyStrip (blockAt (6 + 14) 1 _) = _
    rw [blockAt_skip _ L1]
    show pyStrip (blockAt (2 + 12) 1 _) = _
    rw [blockAt_skip _ L2]
    show pyStrip (blockAt (2 + 10) 1 _) = _
    rw [blockAt_skip _ L3]
    show pyStrip (blockAt (10 + 0) 1 _) = _
    rw [blockAt_skip _ L4, blockAt_zero _ L5, pyStrip_pyRJust 1 (noEdgeWS_allDigits d5.2)]
  have e6 : posSlice fmtSERVICE_PROVIDER_ID_QUAL (headerBlocks h) =
      h.service_provider_id_qual := by
    rw [posSlice_eq]
    unfold headerBlocks
    show pyStrip (blockAt (6 + 15) 2 _) = _
    rw [blockAt_skip _ L1]
    show pyStrip (blockAt (2 + 13) 2 _) = _
    rw [blockAt_skip _ L2]
    show pyStrip (blockAt (2 + 11) 2 _) = _
    rw [blockAt_skip _ L3]
    show pyStrip (blockAt (10 + 1) 2 _) = _
    rw [blockAt_skip _ L4]
    show pyStrip (blockAt (1 + 0) 2 _) = _
    rw [blockAt_skip _ L5, blockAt_zero _ L6, pyStrip_pyRJust 2 (noEdgeWS_allDigits d6.2)]
  have e7 : posSlice fmtSERVICE_PROVIDER_ID (headerBlocks h) =
      pyStrip (pyLJust 15 (h.service_provider_id.getD [])) := by
    rw [posSlice_eq]
    unfold headerBlocks
    show pyStrip (blockAt (6 + 17) 15 _) = _
    rw [blockAt_skip _ L1]
    show pyStrip (blockAt (2 + 15) 15 _) = _
    rw [blockAt_skip _ L2]
    show pyStrip (blockAt (2 + 13) 15 _) = _
    rw [blockAt_skip _ L3]
    show pyStrip (blockAt (10 + 3) 15 _) = _
    rw [blockAt_skip _ L4]
    show pyStrip (blockAt (1 + 2) 15 _) = _
    rw [blockAt_skip _ L5]
    show pyStrip (blockAt (2 + 0) 15 _) = _
    rw [blockAt_skip _ L6, blockAt_zero _ L7]
  have e8 : posSlice fmtSERVICE_DATE (headerBlocks h) = h.service_date := by
    rw [posSlice_eq]
    unfold headerBlocks
    show pyStrip (blockAt (6 + 32) 8 _) = _
    rw [blockAt_skip _ L1]
    show pyStrip (blockAt (2 + 30) 8 _) = _
    rw [blockAt_skip _ L2]
    show pyStrip (blockAt (2 + 28) 8 _) = _
    rw [blockAt_skip _ L3]
    show pyStrip (blockAt (10 + 18) 8 _) = _
    rw [blockAt_skip _ L4]
    show pyStrip (blockAt (1 + 17) 8 _) = _
    rw [blockAt_skip _ L5]
    show pyStrip (blockAt (2 + 15) 8 _) = _
    rw [blockAt_skip _ L6]
    show pyStrip (blockAt (15 + 0) 8 _) = _
    rw [blockAt_skip _ L7, blockAt_zero _ L8, pyStrip_pyRJust 8 (noEdgeWS_allDigits d8.2)]
  have e9 : posSlice fmtCERTIFICATION_ID (headerBlocks h) =
      pyStrip (pyLJust 10 (h.certification_id.getD [])) := by
    rw [posSlice_eq]
    unfold headerBlocks
    show pyStrip (blockAt (6 + 40) 10 _) = _
    rw [blockAt_skip _ L1]
    show pyStrip (blockAt (2 + 38) 10 _) = _
    rw [blockAt_skip _ L2]
    show pyStrip (blockAt (2 + 36) 10 _) = _
    rw [blockAt_skip _ L3]
    show pyStrip (blockAt (10 + 26) 10 _) = _
    rw [blockAt_skip _ L4]
    show pyStrip (blockAt (1 + 25) 10 _) = _
    rw [blockAt_skip _ L5]
    show pyStrip (blockAt (2 + 23) 10 _) = _
    rw [blockAt_skip _ L6]
    show pyStrip (blockAt (15 + 8) 10 _) = _
    rw [blockAt_skip _ L7]
    show pyStrip (blockAt (8 + 0) 10 _) = _
    rw [blockAt_skip _ L8, blockAt_zero' L9]
  have optBranch : ∀ (v : Option PyStr) (w : Nat), optPresentOk v = true →
      (if pyStrip (pyStrip (pyLJust w (v.getD []))) = [] then (none : Option PyStr)
       else some (pyStrip (pyLJust w (v.getD [])))) = v := by
    intro v w hok
    cases v with
    | none =>
      rw [show (none : Option PyStr).getD [] = [] from rfl,
        show pyLJust w [] = List.replicate w ' ' from by simp [pyLJust],
        pyStrip_replicate]
      simp [pyStrip, stripLeft, stripRight]
    | some p =>
      simp only [optPresentOk, Bool.and_eq_true] at hok
      obtain ⟨⟨hne', hnoe⟩, _⟩ := hok
      have hne : p ≠ [] := by simpa using hne'
      rw [Option.getD_some, pyStrip_pyLJust w hnoe, pyStrip_eq_self hnoe, if_neg hne]
  have p4 := optBranch h.pcn 10 hpcn
  have p7 := optBranch h.service_provider_id 15 hspid
  have p9 := optBranch h.certification_id 10 hcert
  unfold headerParse
  rw [if_neg (by rw [Ltot]; decide)]
  have hraw : headerParseRaw (headerBlocks h) = h := by
    unfold headerParseRaw
    rw [e1, e2, e3, e4, e5, e6, e7, e8, e9, p4, p7, p9]
  rw [hraw, if_pos hv]

theorem headerParse_inv {s : PyStr} {h : Header} (hp : headerParse s = .ok h) :
    ¬ s.length < 56 ∧ headerFieldsValid (headerParseRaw s) = true ∧
      h = headerParseRaw s := by
  unfold headerParse at hp
  by_cases hl : s.length < headerLength
  · rw [if_pos hl] at hp
    exact absurd hp (by simp)
  · rw [if_neg hl] at hp
    by_cases hval : headerFieldsValid (headerParseRaw s) = true
    · rw [if_pos hval] at hp
      refine ⟨hl, hval, ?_⟩
      cases hp
      rfl
    · rw [if_neg hval] at hp
      exact absurd hp (by simp)

theorem headerDecomp (s : PyStr) (hlen : s.length = 56) :
    blockAt 0 6 s ++ (blockAt 6 2 s ++ (blockAt 8 2 s ++ (blockAt 10 10 s ++
    (blockAt 20 1 s ++ (blockAt 21 2 s ++ (blockAt 23 15 s ++ (blockAt 38 8 s ++
    blockAt 46 10 s))))))) = s := by
  have step : ∀ st w : Nat, blockAt st w s ++ s.drop (st + w) = s.drop st := by
    intro st w
    rw [blockAt, show s.drop (st + w) = (s.drop st).drop w from by
      rw [List.drop_drop, Nat.add_comm]]
    exact List.take_append_drop w (s.drop st)
  have c9 : blockAt 46 10 s = s.drop 46 := by
    rw [blockAt]
    have hl : (s.drop 46).length = 10 := by simp [hlen]
    have := List.take_of_length_le (le_of_eq hl)
    simpa using this
  rw [c9, show s.drop 46 = s.drop (38 + 8) from rfl, step 38 8,
    show s.drop 38 = s.drop (23 + 15) from rfl, step 23 15,
    show s.drop 23 = s.drop (21 + 2) from rfl, step 21 2,
    show s.drop 21 = s.drop (20 + 1) from rfl, step 20 1,
    show s.drop 20 = s.drop (10 + 10) from rfl, step 10 10,
    show s.drop 10 = s.drop (8 + 2) from rfl, step 8 2,
    show s.drop 8 = s.drop (6 + 2) from rfl, step 6 2,
    show s.drop 6 = s.drop (0 + 6) from rfl, step 0 6, List.drop_zero]

theorem optGetD_branch (t : PyStr) (hid : pyStrip t = t) :
    ((if pyStrip t = [] then (none : Option PyStr) else some t).getD []) = t := by
  by_cases hc : pyStrip t = []
  · simp only [hc, if_pos, Option.getD_none]
    rw [← hid, hc]
  · simp [hc]

theorem headerCanonical_serialize {s : PyStr} {h : Header} (hlen : s.length = 56)
    (hp : headerParse s = .ok h) (hc : headerCanonical s = true) :
    headerSerialize h = .ok s := by
  obtain ⟨-, hval, rfl⟩ := headerParse_inv hp
  rw [headerSerialize_eq _ hval]
  congr 1
  simp only [headerCanonical, Bool.and_eq_true] at hc
  obtain ⟨⟨⟨⟨⟨⟨⟨⟨k1, k2⟩, k3⟩, k4⟩, k5⟩, k6⟩, k7⟩, k8⟩, k9⟩ := hc
  have g1 : blockAt 0 6 s = pyLJust 6 (pyStrip (blockAt 0 6 s)) := by
    simpa [canonicalBlockR] using k1
  have g2 : blockAt 6 2 s = pyRJust 2 (pyStrip (blockAt 6 2 s)) := by
    simpa [canonicalBlockL] using k2
  have g3 : blockAt 8 2 s = pyRJust 2 (pyStrip (blockAt 8 2 s)) := by
    simpa [canonicalBlockL] using k3
  have g4 : blockAt 10 10 s = pyLJust 10 (pyStrip (blockAt 10 10 s)) := by
    simpa [canonicalBlockR] using k4
  have g5 : blockAt 20 1 s = pyRJust 1 (pyStrip (blockAt 20 1 s)) := by
    simpa [canonicalBlockL] using k5
  have g6 : blockAt 21 2 s = pyRJust 2 (pyStrip (blockAt 21 2 s)) := by
    simpa [canonicalBlockL] using k6
  have g7 : blockAt 23 15 s = pyLJust 15 (pyStrip (blockAt 23 15 s)) := by
    simpa [canonicalBlockR] using k7
  have g8 : blockAt 38 8 s = pyRJust 8 (pyStrip (blockAt 38 8 s)) := by
    simpa [canonicalBlockL] using k8
  have g9 : blockAt 46 10 s = pyLJust 10 (pyStrip (blockAt 46 10 s)) := by
    simpa [canonicalBlockR] using k9
  unfold headerBlocks headerParseRaw
  simp only [posSlice_eq, fmtRXBIN, fmtVERSION, fmtTRANSACTION_CODE, fmtPCN,
    fmtTRANSACTION_COUNT, fmtSERVICE_PROVIDER_ID_QUAL, fmtSERVICE_PROVIDER_ID,
    fmtSERVICE_DATE, fmtCERTIFICATION_ID]
  rw [optGetD_branch _ (pyStrip_idem _), optGetD_branch _ (pyStrip_idem _),
    optGetD_branch _ (pyStrip_idem _)]
  rw [← g1, ← g2, ← g3, ← g4, ← g5, ← g6, ← g7, ← g8, ← g9]
  exact headerDecomp s hlen

/-! ### Field-map lemmas -/

theorem getField_cons (key v : PyStr) (vs : List PyStr) :
    getField key (v :: vs) =
      if v.take 2 = key then (getField key vs).or (some (v.drop 2))
      else getField key vs := by
  by_cases hv : v.take 2 = key
  · rw [if_pos hv]
    unfold getField
    rw [List.filter_cons, if_pos (by simpa using hv), getLast?_or]
    cases hlast : (vs.filter (fun w => w.take 2 = key)).getLast? <;>
      simp [Option.or, hlast]
  · rw [if_neg hv]
    unfold getField
    rw [List.filter_cons, if_neg (by simpa using hv)]

theorem take2_cons (a b : Char) (v : PyStr) : (a :: b :: v).take 2 = [a, b] := rfl

theorem drop2_cons (a b : Char) (v : PyStr) : (a :: b :: v).drop 2 = v := rfl

/-! ### Digit characters -/

theorem digitChar_isDigit (n : Nat) : (digitChar n).isDigit = true := by
  unfold digitChar
  have h : n % 10 < 10 := Nat.mod_lt _ (by norm_num)
  set k := n % 10 with hk
  interval_cases k <;> decide

theorem digitVal_digitChar (n : Nat) : digitVal (digitChar n) = n % 10 := by
  unfold digitChar
  have h : n % 10 < 10 := Nat.mod_lt _ (by norm_num)
  set k := n % 10 with hk
  interval_cases k <;> decide

/-! ### Date round trip -/

theorem daysInMonth_le (y m : Nat) : daysInMonth y m ≤ 31 := by
  unfold daysInMonth
  split_ifs <;> norm_num

theorem strptime_strftime (d : PyDateTime) (hd : dobSafe d = true) :
    strptimeYmd (strftimeYmd d) = some d := by
  obtain ⟨y, mo, dy, hh, mi, se, mu⟩ := d
  simp only [dobSafe, Bool.and_eq_true, decide_eq_true_eq] at hd
  obtain ⟨⟨⟨⟨⟨⟨⟨⟨⟨hy1, hy2⟩, hm1⟩, hm2⟩, hd1⟩, hd2⟩, hh0⟩, hmi0⟩, hse0⟩, hmu0⟩ := hd
  subst hh0 hmi0 hse0 hmu0
  unfold strftimeYmd strptimeYmd zpad4 zpad2
  simp only [List.cons_append, List.nil_append, List.length_cons, List.length_nil,
    allDigits, List.all_cons, List.all_nil, digitChar_isDigit, Bool.and_true,
    Bool.and_self, List.take_succ_cons, List.take_zero,
    List.drop_succ_cons, List.drop_zero]
  rw [if_pos (by simp)]
  have hDM : daysInMonth y mo ≤ 31 := daysInMonth_le y mo
  have e1 : pyToNat [digitChar (y / 1000), digitChar (y / 100), digitChar (y / 10),
      digitChar y] = y := by
    simp only [pyToNat, List.foldl_cons, List.foldl_nil, digitVal_digitChar]
    omega
  have e2 : pyToNat [digitChar (mo / 10), digitChar mo] = mo := by
    simp only [pyToNat, List.foldl_cons, List.foldl_nil, digitVal_digitChar]
    omega
  have e3 : pyToNat [digitChar (dy / 10), digitChar dy] = dy := by
    simp only [pyToNat, List.foldl_cons, List.foldl_nil, digitVal_digitChar]
    omega
  simp only [e1, e2, e3]
  rw [if_pos (by
    simp only [Bool.and_eq_true, decide_eq_true_eq]
    refine ⟨⟨⟨⟨?_, ?_⟩, ?_⟩, ?_⟩, ?_⟩ <;> omega)]

/-! ### End-of-string helpers -/

theorem pyStrip_concat_ws (l : PyStr) (c : Char) (hc : isPySpace c = true) :
    pyStrip (l ++ [c]) = pyStrip l := by
  rw [pyStrip, stripRight_concat, if_pos hc]
  rfl

theorem endNoWS_append_right {x y : PyStr} (hne : y ≠ []) :
    endNoWS (x ++ y) = endNoWS y := by
  unfold endNoWS
  rw [List.getLast?_append_of_ne_nil _ hne]

theorem endNoWS_cons_ne {c : Char} {R : PyStr} (hR : R ≠ []) :
    endNoWS (c :: R) = endNoWS R := by
  unfold endNoWS
  cases R with
  | nil => exact absurd rfl hR
  | cons y t => rw [List.getLast?_cons_cons]

theorem endNoWS_kf {k f : PyStr} (hk : endNoWS k = true) (hf : endNoWS f = true) :
    endNoWS (k ++ f) = true := by
  cases hf' : f with
  | nil => simpa using hk
  | cons a t => rw [← hf', endNoWS_append_right (by simp [hf'])]; exact hf

theorem strip_fs (l : PyStr) (hne : l ≠ []) (hh : headNoWS l = true)
    (he : endNoWS l = true) : pyStrip (FSc :: l) = l := by
  have h1 : stripRight (FSc :: l) = FSc :: l := by
    apply stripRight_eq_self
    rw [endNoWS_cons_ne hne]
    exact he
  rw [pyStrip, h1, stripLeft_cons, if_pos (by decide)]
  exact stripLeft_eq_self hh

theorem sepFree_props {f : PyStr} (h : sepFree f = true) :
    FSc ∉ f ∧ GSc ∉ f ∧ RSc ∉ f := by
  simp only [sepFree, List.all_eq_true, Bool.and_eq_true, decide_eq_true_eq] at h
  refine ⟨fun hm => ?_, fun hm => ?_, fun hm => ?_⟩
  · exact (h _ hm).1.1 rfl
  · exact (h _ hm).1.2 rfl
  · exact (h _ hm).2 rfl

theorem not_mem_append {a : Char} {x y : PyStr} (hx : a ∉ x) (hy : a ∉ y) :
    a ∉ x ++ y := by
  simp only [List.mem_append]
  tauto

theorem headNoWS_append_left {x y : PyStr} (hne : x ≠ []) :
    headNoWS (x ++ y) = headNoWS x := by
  unfold headNoWS
  cases x with
  | nil => exact absurd rfl hne
  | cons a t => simp

theorem pyJoin_ne_nil {sep : Char} (v0 : PyStr) (rest : List PyStr) (hne : v0 ≠ []) :
    pyJoin sep (v0 :: rest) ≠ [] := by
  cases rest with
  | nil => simpa [pyJoin] using hne
  | cons y t =>
    show v0 ++ sep :: pyJoin sep (y :: t) ≠ []
    simp

theorem headNoWS_pyJoin {sep : Char} (v0 : PyStr) (rest : List PyStr)
    (h : headNoWS v0 = true) (hne : v0 ≠ []) :
    headNoWS (pyJoin sep (v0 :: rest)) = true := by
  cases rest with
  | nil => simpa [pyJoin] using h
  | cons y t =>
    show headNoWS (v0 ++ sep :: pyJoin sep (y :: t)) = true
    rw [headNoWS_append_left hne]
    exact h

theorem pyJoin_concat_ne {sep : Char} : ∀ (ps : List PyStr) (q : PyStr), q ≠ [] →
    pyJoin sep (ps ++ [q]) ≠ []
  | [], q, hq => by simpa [pyJoin] using hq
  | x :: ps', q, hq => by
    cases ps' with
    | nil =>
      show x ++ sep :: pyJoin sep [q] ≠ []
      simp
    | cons z t =>
      show x ++ sep :: pyJoin sep ((z :: t) ++ [q]) ≠ []
      simp

theorem endNoWS_pyJoin {sep : Char} : ∀ (ps : List PyStr) (q : PyStr),
    endNoWS q = true → q ≠ [] → endNoWS (pyJoin sep (ps ++ [q])) = true
  | [], q, hq, _ => by simpa [pyJoin] using hq
  | x :: ps', q, hq, hne => by
    have hrec := @endNoWS_pyJoin sep ps' q hq hne
    have hjoin : pyJoin sep (ps' ++ [q]) ≠ [] := pyJoin_concat_ne ps' q hne
    cases ps' with
    | nil =>
      show endNoWS (x ++ sep :: pyJoin sep [q]) = true
      rw [endNoWS_append_right (by simp), endNoWS_cons_ne (by simpa [pyJoin] using hne)]
      simpa [pyJoin] using hq
    | cons z t =>
      show endNoWS (x ++ sep :: pyJoin sep ((z :: t) ++ [q])) = true
      rw [endNoWS_append_right (by simp), endNoWS_cons_ne (by simpa using hjoin)]
      exact hrec

/-! ### Segment round trips -/

theorem ins_roundtrip (s : InsuranceSeg) (hs : insSafe s = true) :
    parseSegment (pyStrip (insSerialize s)) = .ok (some (.ins s)) := by
  obtain ⟨sid, fn, ln, pc, ci, icn⟩ := s
  simp only [insSafe, fieldOk, lastFieldOk, Bool.and_eq_true, decide_eq_true_eq] at hs
  obtain ⟨⟨⟨⟨⟨hid, hfn⟩, hpc⟩, hci⟩, hicn⟩, hlnsep, hlnend⟩ := hs
  subst hid
  have hser : insSerialize ⟨AM04s, fn, ln, pc, ci, icn⟩ =
      FSc :: pyJoin FSc [AM04s, kC2 ++ icn, kC1 ++ fn, kC3 ++ pc, kA6 ++ ci,
        kA7 ++ ln] := rfl
  rw [hser]
  have hlast : endNoWS (kA7 ++ ln) = true := endNoWS_kf (by decide) hlnend
  have hlastne : kA7 ++ ln ≠ [] := by simp [kA7]
  have hstrip : pyStrip (FSc :: pyJoin FSc [AM04s, kC2 ++ icn, kC1 ++ fn, kC3 ++ pc,
      kA6 ++ ci, kA7 ++ ln]) = pyJoin FSc [AM04s, kC2 ++ icn, kC1 ++ fn, kC3 ++ pc,
      kA6 ++ ci, kA7 ++ ln] := by
    apply strip_fs
    · exact pyJoin_ne_nil _ _ (by decide)
    · exact headNoWS_pyJoin _ _ (by decide) (by decide)
    · exact endNoWS_pyJoin [AM04s, kC2 ++ icn, kC1 ++ fn, kC3 ++ pc, kA6 ++ ci] _
        hlast hlastne
  rw [hstrip]
  have hsplit : splitOnChar FSc (pyJoin FSc [AM04s, kC2 ++ icn, kC1 ++ fn, kC3 ++ pc,
      kA6 ++ ci, kA7 ++ ln]) = [AM04s, kC2 ++ icn, kC1 ++ fn, kC3 ++ pc, kA6 ++ ci,
      kA7 ++ ln] := by
    apply splitOnChar_pyJoin (by simp)
    intro p hp
    fin_cases hp
    · decide
    · exact not_mem_append (by decide) (sepFree_props hicn).1
    · exact not_mem_append (by decide) (sepFree_props hfn).1
    · exact not_mem_append (by decide) (sepFree_props hpc).1
    · exact not_mem_append (by decide) (sepFree_props hci).1
    · exact not_mem_append (by decide) (sepFree_props hlnsep).1
  unfold parseSegment
  rw [if_neg (pyJoin_ne_nil _ _ (by decide)), hsplit]
  simp [parseSegmentPieces, insFromValues, getField_cons, getField, Option.or,
    requireF, kC1, kC2, kC3, kA6, kA7, Except.bind]
  rfl

theorem digit_not_sep {c : Char} (h : c.isDigit = true) :
    c ≠ FSc ∧ c ≠ GSc ∧ c ≠ RSc := by
  refine ⟨?_, ?_, ?_⟩ <;> (rintro rfl; exact absurd h (by decide))

theorem alnum_not_sep {c : Char} (h : c.isAlphanum = true) :
    c ≠ FSc ∧ c ≠ GSc ∧ c ≠ RSc := by
  refine ⟨?_, ?_, ?_⟩ <;> (rintro rfl; exact absurd h (by decide))

theorem sepFree_of_pred {f : PyStr} (h : ∀ c ∈ f, c ≠ FSc ∧ c ≠ GSc ∧ c ≠ RSc) :
    sepFree f = true := by
  rw [sepFree, List.all_eq_true]
  intro c hc
  obtain ⟨a1, a2, a3⟩ := h c hc
  simp [a1, a2, a3]

theorem sepFree_of_digits {f : PyStr} (h : allDigits f = true) : sepFree f = true := by
  refine sepFree_of_pred (fun c hc => digit_not_sep ?_)
  simp only [allDigits, List.all_eq_true] at h
  simpa using h c hc

theorem sepFree_of_alnum {f : PyStr} (h : f.all (fun c => c.isAlphanum) = true) :
    sepFree f = true := by
  refine sepFree_of_pred (fun c hc => alnum_not_sep ?_)
  simp only [List.all_eq_true] at h
  simpa using h c hc

theorem sepFree_append {x y : PyStr} (hx : sepFree x = true) (hy : sepFree y = true) :
    sepFree (x ++ y) = true := by
  simp only [sepFree, List.all_append, Bool.and_eq_true] at *
  exact ⟨hx, hy⟩

theorem overTerm_not_ws {c : Char}
    (h : (('A' ≤ c && c ≤ 'R') || c = '{' || c = '}') = true) : isPySpace c = false := by
  cases hsp : isPySpace c
  · rfl
  · exfalso
    rcases isPySpace_cases hsp with rfl|rfl|rfl|rfl|rfl|rfl|rfl|rfl|rfl|rfl|rfl|rfl <;>
      exact absurd h (by decide)

theorem overTerm_not_sep {c : Char}
    (h : (('A' ≤ c && c ≤ 'R') || c = '{' || c = '}') = true) :
    c ≠ FSc ∧ c ≠ GSc ∧ c ≠ RSc := by
  refine ⟨?_, ?_, ?_⟩ <;> (rintro rfl; exact absurd h (by decide))

theorem overpunchShape_props {f : PyStr} (h : overpunchShape f = true) :
    sepFree f = true ∧ endNoWS f = true ∧ f ≠ [] := by
  simp only [overpunchShape, Bool.and_eq_true, decide_eq_true_eq] at h
  obtain ⟨⟨hlen, hdig⟩, hterm⟩ := h
  rcases List.eq_nil_or_concat f with rfl | ⟨f', c, rfl⟩
  · simp at hlen
  · simp only [List.concat_eq_append] at hlen hdig hterm ⊢
    rw [List.dropLast_concat] at hdig
    rw [List.getLast?_concat] at hterm
    have hterm' : (('A' ≤ c && c ≤ 'R') || c = '{' || c = '}') = true := hterm
    refine ⟨?_, ?_, by simp⟩
    · refine sepFree_append (sepFree_of_digits hdig) (sepFree_of_pred ?_)
      intro x hx
      rw [List.mem_singleton] at hx
      subst hx
      exact overTerm_not_sep hterm'
    · rw [endNoWS, List.getLast?_concat]
      simp [overTerm_not_ws hterm']

theorem rxq_props {v : PyStr} (h : v ∈ rxRefQualCodes) :
    sepFree v = true ∧ normalizeQual v = v := by
  fin_cases h <;> exact ⟨by decide, rfl⟩

theorem pq_sepFree {v : PyStr} (h : v ∈ productQualCodes) : sepFree v = true := by
  fin_cases h <;> decide

theorem spi_sepFree {v : PyStr} (h : v ∈ spiCodes) : sepFree v = true := by
  fin_cases h <;> decide

theorem gender_sepFree {v : PyStr} (h : v ∈ genderCodes) : sepFree v = true := by
  fin_cases h <;> decide

theorem strftime_digits (d : PyDateTime) : allDigits (strftimeYmd d) = true := by
  simp [strftimeYmd, zpad4, zpad2, allDigits, digitChar_isDigit]

theorem not_mem_pyJoin {a sep : Char} (hne : a ≠ sep) : ∀ {ps : List PyStr},
    (∀ p ∈ ps, a ∉ p) → a ∉ pyJoin sep ps
  | [], _ => by simp [pyJoin]
  | [x], h => by simpa [pyJoin] using h x (by simp)
  | x :: y :: t, h => by
    show a ∉ x ++ sep :: pyJoin sep (y :: t)
    apply not_mem_append (h x (by simp))
    intro hm
    rcases List.mem_cons.mp hm with rfl | hm'
    · exact hne rfl
    · exact not_mem_pyJoin hne (fun p hp => h p (List.mem_cons_of_mem _ hp)) hm'

theorem segStr_not_mem {a : Char} (ha : a ≠ FSc) (values : List PyStr)
    (h : ∀ p ∈ values, a ∉ p) : a ∉ FSc :: pyJoin FSc values := by
  intro hm
  rcases List.mem_cons.mp hm with rfl | hm'
  · exact ha rfl
  · exact not_mem_pyJoin ha h hm'

theorem insValues_sepFree (s : InsuranceSeg) (hs : insSafe s = true) :
    ∀ p ∈ insValues s, sepFree p = true := by
  obtain ⟨sid, fn, ln, pc, ci, icn⟩ := s
  simp only [insSafe, fieldOk, lastFieldOk, Bool.and_eq_true, decide_eq_true_eq] at hs
  obtain ⟨⟨⟨⟨⟨hid, hfn⟩, hpc⟩, hci⟩, hicn⟩, hlnsep, hlnend⟩ := hs
  subst hid
  intro p hp
  fin_cases hp
  · show sepFree AM04s = true
    decide
  · exact sepFree_append (by decide) hicn
  · exact sepFree_append (by decide) hfn
  · exact sepFree_append (by decide) hpc
  · exact sepFree_append (by decide) hci
  · exact sepFree_append (by decide) hlnsep

theorem preValues_sepFree (s : PrescriberSeg) (hs : preSafe s = true) :
    ∀ p ∈ preValues s, sepFree p = true := by
  obtain ⟨sid, pq, pid⟩ := s
  simp only [preSafe, fieldOk, lastFieldOk, Bool.and_eq_true, decide_eq_true_eq] at hs
  obtain ⟨⟨hid, hpq⟩, hpid, hpidend⟩ := hs
  subst hid
  intro p hp
  fin_cases hp
  · show sepFree AM03s = true
    decide
  · exact sepFree_append (by decide) hpq
  · exact sepFree_append (by decide) hpid

theorem pre_roundtrip (s : PrescriberSeg) (hs : preSafe s = true) :
    parseSegment (pyStrip (preSerialize s)) = .ok (some (.pre s)) := by
  have hpieces := preValues_sepFree s hs
  obtain ⟨sid, pq, pid⟩ := s
  simp only [preSafe, fieldOk, lastFieldOk, Bool.and_eq_true, decide_eq_true_eq] at hs
  obtain ⟨⟨hid, hpq⟩, hpid, hpidend⟩ := hs
  subst hid
  have hser : preSerialize ⟨AM03s, pq, pid⟩ =
      FSc :: pyJoin FSc [AM03s, kEZ ++ pq, kDB ++ pid] := rfl
  rw [hser]
  have hstrip : pyStrip (FSc :: pyJoin FSc [AM03s, kEZ ++ pq, kDB ++ pid]) =
      pyJoin FSc [AM03s, kEZ ++ pq, kDB ++ pid] := by
    apply strip_fs
    · exact pyJoin_ne_nil _ _ (by decide)
    · exact headNoWS_pyJoin _ _ (by decide) (by decide)
    · exact endNoWS_pyJoin [AM03s, kEZ ++ pq] _ (endNoWS_kf (by decide) hpidend)
        (by simp [kDB])
  rw [hstrip]
  have hsplit : splitOnChar FSc (pyJoin FSc [AM03s, kEZ ++ pq, kDB ++ pid]) =
      [AM03s, kEZ ++ pq, kDB ++ pid] := by
    apply splitOnChar_pyJoin (by simp)
    exact fun p hp => (sepFree_props (hpieces p hp)).1
  unfold parseSegment
  rw [if_neg (pyJoin_ne_nil _ _ (by decide)), hsplit]
  simp [parseSegmentPieces, preFromValues, getField_cons, getField, Option.or,
    requireF, kEZ, kDB, AM03s, AM04s, AM01s, AM07s, AM11s, Except.bind]
  rfl

theorem phaValues_sepFree (s : PharmacySeg) (hs : phaSafe s = true) :
    ∀ p ∈ phaValues s, sepFree p = true := by
  obtain ⟨sid, gid⟩ := s
  simp only [phaSafe, fieldOk, lastFieldOk, Bool.and_eq_true, decide_eq_true_eq] at hs
  obtain ⟨hid, hgid, hgidend⟩ := hs
  subst hid
  intro p hp
  fin_cases hp
  · show sepFree AM06s = true
    decide
  · exact sepFree_append (by decide) hgid

theorem pha_roundtrip (s : PharmacySeg) (hs : phaSafe s = true) :
    parseSegment (pyStrip (phaSerialize s)) = .ok (some (.pha s)) := by
  have hpieces := phaValues_sepFree s hs
  obtain ⟨sid, gid⟩ := s
  simp only [phaSafe, fieldOk, lastFieldOk, Bool.and_eq_true, decide_eq_true_eq] at hs
  obtain ⟨hid, hgid, hgidend⟩ := hs
  subst hid
  have hser : phaSerialize ⟨AM06s, gid⟩ = FSc :: pyJoin FSc [AM06s, kDZ ++ gid] := rfl
  rw [hser]
  have hstrip : pyStrip (FSc :: pyJoin FSc [AM06s, kDZ ++ gid]) =
      pyJoin FSc [AM06s, kDZ ++ gid] := by
    apply strip_fs
    · exact pyJoin_ne_nil _ _ (by decide)
    · exact headNoWS_pyJoin _ _ (by decide) (by decide)
    · exact endNoWS_pyJoin [AM06s] _ (endNoWS_kf (by decide) hgidend) (by simp [kDZ])
  rw [hstrip]
  have hsplit : splitOnChar FSc (pyJoin FSc [AM06s, kDZ ++ gid]) =
      [AM06s, kDZ ++ gid] := by
    apply splitOnChar_pyJoin (by simp)
    exact fun p hp => (sepFree_props (hpieces p hp)).1
  unfold parseSegment
  rw [if_neg (pyJoin_ne_nil _ _ (by decide)), hsplit]
  simp [parseSegmentPieces, phaFromValues, getField_cons, getField, Option.or,
    requireF, kDZ, AM03s, AM04s, AM01s, AM07s, AM11s, AM06s, Except.bind]
  rfl

theorem cliValues_sepFree (s : ClinicalSeg) (hs : cliSafe s = true) :
    ∀ p ∈ cliValues s, sepFree p = true := by
  obtain ⟨sid, ct, oq⟩ := s
  simp only [cliSafe, fieldOk, lastFieldOk, Bool.and_eq_true, decide_eq_true_eq] at hs
  obtain ⟨⟨hid, hct⟩, hoq, hoqend⟩ := hs
  subst hid
  intro p hp
  fin_cases hp
  · show sepFree AM08s = true
    decide
  · exact sepFree_append (by decide) hct
  · exact sepFree_append (by decide) hoq

theorem cli_roundtrip (s : ClinicalSeg) (hs : cliSafe s = true) :
    parseSegment (pyStrip (cliSerialize s)) = .ok (some (.cli s)) := by
  have hpieces := cliValues_sepFree s hs
  obtain ⟨sid, ct, oq⟩ := s
  simp only [cliSafe, fieldOk, lastFieldOk, Bool.and_eq_true, decide_eq_true_eq] at hs
  obtain ⟨⟨hid, hct⟩, hoq, hoqend⟩ := hs
  subst hid
  have hser : cliSerialize ⟨AM08s, ct, oq⟩ =
      FSc :: pyJoin FSc [AM08s, kSevenE ++ ct, kE5 ++ oq] := rfl
  rw [hser]
  have hstrip : pyStrip (FSc :: pyJoin FSc [AM08s, kSevenE ++ ct, kE5 ++ oq]) =
      pyJoin FSc [AM08s, kSevenE ++ ct, kE5 ++ oq] := by
    apply strip_fs
    · exact pyJoin_ne_nil _ _ (by decide)
    · exact headNoWS_pyJoin _ _ (by decide) (by decide)
    · exact endNoWS_pyJoin [AM08s, kSevenE ++ ct] _ (endNoWS_kf (by decide) hoqend)
        (by simp [kE5])
  rw [hstrip]
  have hsplit : splitOnChar FSc (pyJoin FSc [AM08s, kSevenE ++ ct, kE5 ++ oq]) =
      [AM08s, kSevenE ++ ct, kE5 ++ oq] := by
    apply splitOnChar_pyJoin (by simp)
    exact fun p hp => (sepFree_props (hpieces p hp)).1
  unfold parseSegment
  rw [if_neg (pyJoin_ne_nil _ _ (by decide)), hsplit]
  simp [parseSegmentPieces, cliFromValues, getField_cons, getField, Option.or,
    requireF, kSevenE, kE5, AM03s, AM04s, AM01s, AM07s, AM11s, AM06s, AM08s,
    Except.bind]
  rfl

theorem except_bind_ok {e a b : Type} (x : a) (f : a → Except e b) :
    (Except.ok x >>= f) = f x := rfl

theorem except_bind_error {e a b : Type} (x : e) (f : a → Except e b) :
    ((Except.error x : Except e a) >>= f) = Except.error x := rfl

theorem except_map_ok {e a b : Type} (x : a) (f : a → b) :
    Except.map f (Except.ok x : Except e a) = Except.ok (f x) := rfl

theorem except_map_error {e a b : Type} (x : e) (f : a → b) :
    Except.map f (Except.error x : Except e a) = Except.error x := rfl

theorem patValues_sepFree (s : PatientSeg) (hs : patSafe s = true) :
    ∀ p ∈ patValues s, sepFree p = true := by
  obtain ⟨sid, dob, g, ln, fn, zip⟩ := s
  simp only [patSafe, fieldOk, lastFieldOk, Bool.and_eq_true, decide_eq_true_eq] at hs
  obtain ⟨⟨⟨⟨⟨hid, hdob⟩, hg⟩, hln⟩, hfn⟩, hzip, hzipend⟩ := hs
  subst hid
  intro p hp
  fin_cases hp
  · show sepFree AM01s = true
    decide
  · exact sepFree_append (by decide) (sepFree_of_digits (strftime_digits dob))
  · exact sepFree_append (by decide) (gender_sepFree hg)
  · exact sepFree_append (by decide) hln
  · exact sepFree_append (by decide) hfn
  · exact sepFree_append (by decide) hzip

theorem pat_roundtrip (s : PatientSeg) (hs : patSafe s = true) :
    parseSegment (pyStrip (patSerialize s ++ [GSc])) = .ok (some (.pat s)) := by
  have hpieces := patValues_sepFree s hs
  obtain ⟨sid, dob, g, ln, fn, zip⟩ := s
  simp only [patSafe, fieldOk, lastFieldOk, Bool.and_eq_true, decide_eq_true_eq] at hs
  obtain ⟨⟨⟨⟨⟨hid, hdob⟩, hg⟩, hln⟩, hfn⟩, hzip, hzipend⟩ := hs
  subst hid
  have hser : patSerialize ⟨AM01s, dob, g, ln, fn, zip⟩ =
      FSc :: pyJoin FSc [AM01s, kC4 ++ strftimeYmd dob, kC5 ++ g, kCA ++ ln,
        kCB ++ fn, kCP ++ zip] := rfl
  rw [hser, pyStrip_concat_ws _ _ (by decide)]
  have hstrip : pyStrip (FSc :: pyJoin FSc [AM01s, kC4 ++ strftimeYmd dob, kC5 ++ g,
      kCA ++ ln, kCB ++ fn, kCP ++ zip]) = pyJoin FSc [AM01s,
      kC4 ++ strftimeYmd dob, kC5 ++ g, kCA ++ ln, kCB ++ fn, kCP ++ zip] := by
    apply strip_fs
    · exact pyJoin_ne_nil _ _ (by decide)
    · exact headNoWS_pyJoin _ _ (by decide) (by decide)
    · exact endNoWS_pyJoin [AM01s, kC4 ++ strftimeYmd dob, kC5 ++ g, kCA ++ ln,
        kCB ++ fn] _ (endNoWS_kf (by decide) hzipend) (by simp [kCP])
  rw [hstrip]
  have hsplit : splitOnChar FSc (pyJoin FSc [AM01s, kC4 ++ strftimeYmd dob, kC5 ++ g,
      kCA ++ ln, kCB ++ fn, kCP ++ zip]) = [AM01s, kC4 ++ strftimeYmd dob, kC5 ++ g,
      kCA ++ ln, kCB ++ fn, kCP ++ zip] := by
    apply splitOnChar_pyJoin (by simp)
    exact fun p hp => (sepFree_props (hpieces p hp)).1
  unfold parseSegment
  rw [if_neg (pyJoin_ne_nil _ _ (by decide)), hsplit]
  simp [parseSegmentPieces, patFromValues, getField_cons, getField, Option.or,
    requireF, ensure, kC4, kC5, kCA, kCB, kCP, AM03s, AM04s, AM01s, AM07s, AM11s,
    Except.bind, except_bind_ok, except_bind_error, except_map_ok, except_map_error,
    strptime_strftime dob hdob, hg]

theorem prcValues_sepFree (s : PricingSeg) (hs : prcSafe s = true) :
    ∀ p ∈ prcValues s, sepFree p = true := by
  obtain ⟨sid, ics, dfs, psf, gad, oac⟩ := s
  simp only [prcSafe, Bool.and_eq_true, decide_eq_true_eq] at hs
  obtain ⟨⟨⟨⟨⟨hid, h1⟩, h2⟩, hm⟩, h4⟩, h5⟩ := hs
  subst hid
  cases psf with
  | none => simp at hm
  | some v =>
    intro p hp
    fin_cases hp
    · show sepFree AM11s = true
      decide
    · exact sepFree_append (by decide) (overpunchShape_props h1).1
    · exact sepFree_append (by decide) (overpunchShape_props h2).1
    · exact sepFree_append (by decide) (overpunchShape_props hm).1
    · exact sepFree_append (by decide) (overpunchShape_props h4).1
    · exact sepFree_append (by decide) (overpunchShape_props h5).1

theorem prc_roundtrip (s : PricingSeg) (hs : prcSafe s = true) :
    parseSegment (pyStrip (prcSerialize s)) = .ok (some (.prc s)) := by
  have hpieces := prcValues_sepFree s hs
  obtain ⟨sid, ics, dfs, psf, gad, oac⟩ := s
  simp only [prcSafe, Bool.and_eq_true, decide_eq_true_eq] at hs
  obtain ⟨⟨⟨⟨⟨hid, h1⟩, h2⟩, hm⟩, h4⟩, h5⟩ := hs
  subst hid
  cases psf with
  | none => simp at hm
  | some v =>
    have hm' : overpunchShape v = true := hm
    have hser : prcSerialize ⟨AM11s, ics, dfs, some v, gad, oac⟩ =
        FSc :: pyJoin FSc [AM11s, kD9 ++ ics, kDC ++ dfs, kE3 ++ v, kDQ ++ gad,
          kDU ++ oac] := rfl
    rw [hser]
    have hstrip : pyStrip (FSc :: pyJoin FSc [AM11s, kD9 ++ ics, kDC ++ dfs,
        kE3 ++ v, kDQ ++ gad, kDU ++ oac]) = pyJoin FSc [AM11s, kD9 ++ ics,
        kDC ++ dfs, kE3 ++ v, kDQ ++ gad, kDU ++ oac] := by
      apply strip_fs
      · exact pyJoin_ne_nil _ _ (by decide)
      · exact headNoWS_pyJoin _ _ (by decide) (by decide)
      · exact endNoWS_pyJoin [AM11s, kD9 ++ ics, kDC ++ dfs, kE3 ++ v, kDQ ++ gad] _
          (endNoWS_kf (by decide) (overpunchShape_props h5).2.1) (by simp [kDU])
    rw [hstrip]
    have hsplit : splitOnChar FSc (pyJoin FSc [AM11s, kD9 ++ ics, kDC ++ dfs,
        kE3 ++ v, kDQ ++ gad, kDU ++ oac]) = [AM11s, kD9 ++ ics, kDC ++ dfs,
        kE3 ++ v, kDQ ++ gad, kDU ++ oac] := by
      apply splitOnChar_pyJoin (by simp)
      exact fun p hp => (sepFree_props (hpieces p hp)).1
    unfold parseSegment
    rw [if_neg (pyJoin_ne_nil _ _ (by decide)), hsplit]
    simp [parseSegmentPieces, prcFromValues, getField_cons, getField, Option.or,
      requireF, ensure, kD9, kDC, kE3, kDQ, kDU, AM03s, AM04s, AM01s, AM07s, AM11s,
      Except.bind, except_bind_ok, except_bind_error, except_map_ok, except_map_error,
      h1, h2, hm', h4, h5]

theorem clmValues_sepFree (s : ClaimSeg) (hs : clmSafe s = true) :
    ∀ p ∈ clmValues s, sepFree p = true := by
  obtain ⟨sid, daw, dpw, ds, occ, poc, pm, psrn, q, psid, pq, qd, ra, fnum, nar,
    spi⟩ := s
  simp only [clmSafe, fieldOk, lastFieldOk, Bool.and_eq_true, decide_eq_true_eq] at hs
  obtain ⟨⟨⟨⟨⟨⟨⟨⟨⟨⟨⟨⟨⟨⟨⟨⟨c1, c2⟩, c3⟩, c4⟩, c5⟩, c6⟩, c7⟩, c8⟩, c9⟩, c10⟩, c11⟩,
    c12⟩, c13⟩, c14⟩, c15⟩, c16⟩, c17⟩ := hs
  subst c1
  cases occ with
  | none => simp at c5
  | some ov =>
    cases spi with
    | none => simp at c17
    | some sv =>
      simp only [Bool.and_eq_true] at c5
      have c17' : sv ∈ spiCodes := by simpa using c17
      have hq := rxq_props c10
      simp only [alnum1to19, Bool.and_eq_true, decide_eq_true_eq] at c11
      simp only [digits12, Bool.and_eq_true, decide_eq_true_eq] at c9
      intro p hp
      fin_cases hp
      · show sepFree AM07s = true
        decide
      · exact sepFree_append (by decide) hq.1
      · exact sepFree_append (by decide) (sepFree_of_digits c9.2)
      · exact sepFree_append (by decide) (pq_sepFree c12)
      · exact sepFree_append (by decide) (sepFree_of_alnum c11.2)
      · exact sepFree_append (by decide) c8
      · exact sepFree_append (by decide) c13
      · exact sepFree_append (by decide) c15
      · exact sepFree_append (by decide) c4
      · exact sepFree_append (by decide) c14
      · exact sepFree_append (by decide) c2
      · exact sepFree_append (by decide) c3
      · exact sepFree_append (by decide) c16
      · exact sepFree_append (by decide) c6
      · exact sepFree_append (by decide) (spi_sepFree c17')
      · exact sepFree_append (by decide) c5.1

set_option maxHeartbeats 1000000 in
theorem clm_roundtrip (s : ClaimSeg) (hs : clmSafe s = true) :
    parseSegment (pyStrip (clmSerialize s)) = .ok (some (.clm s)) := by
  have hpieces := clmValues_sepFree s hs
  obtain ⟨sid, daw, dpw, ds, occ, poc, pm, psrn, q, psid, pq, qd, ra, fnum, nar,
    spi⟩ := s
  simp only [clmSafe, fieldOk, lastFieldOk, Bool.and_eq_true, decide_eq_true_eq] at hs
  obtain ⟨⟨⟨⟨⟨⟨⟨⟨⟨⟨⟨⟨⟨⟨⟨⟨c1, c2⟩, c3⟩, c4⟩, c5⟩, c6⟩, c7⟩, c8⟩, c9⟩, c10⟩, c11⟩,
    c12⟩, c13⟩, c14⟩, c15⟩, c16⟩, c17⟩ := hs
  subst c1
  cases occ with
  | none => simp at c5
  | some ov =>
    cases spi with
    | none => simp at c17
    | some sv =>
      simp only [Bool.and_eq_true] at c5
      have c17' : sv ∈ spiCodes := by simpa using c17
      have hq := rxq_props c10
      have hser : clmSerialize ⟨AM07s, daw, dpw, ds, some ov, poc, pm, psrn, q, psid,
          pq, qd, ra, fnum, nar, some sv⟩ =
          FSc :: pyJoin FSc [AM07s, kEM ++ q, kD2 ++ psrn, kE1 ++ pq, kD7 ++ psid,
            kSE ++ pm, kE7 ++ qd, kD3 ++ fnum, kD5 ++ ds, kD6 ++ ra, kD8 ++ daw,
            kDE ++ dpw, kDF ++ nar, kDJ ++ poc, kDT ++ sv, kEB ++ ov] := rfl
      rw [hser]
      have hstrip : pyStrip (FSc :: pyJoin FSc [AM07s, kEM ++ q, kD2 ++ psrn,
          kE1 ++ pq, kD7 ++ psid, kSE ++ pm, kE7 ++ qd, kD3 ++ fnum, kD5 ++ ds,
          kD6 ++ ra, kD8 ++ daw, kDE ++ dpw, kDF ++ nar, kDJ ++ poc, kDT ++ sv,
          kEB ++ ov]) = pyJoin FSc [AM07s, kEM ++ q, kD2 ++ psrn, kE1 ++ pq,
          kD7 ++ psid, kSE ++ pm, kE7 ++ qd, kD3 ++ fnum, kD5 ++ ds, kD6 ++ ra,
          kD8 ++ daw, kDE ++ dpw, kDF ++ nar, kDJ ++ poc, kDT ++ sv, kEB ++ ov] := by
        apply strip_fs
        · exact pyJoin_ne_nil _ _ (by decide)
        · exact headNoWS_pyJoin _ _ (by decide) (by decide)
        · exact endNoWS_pyJoin [AM07s, kEM ++ q, kD2 ++ psrn, kE1 ++ pq, kD7 ++ psid,
            kSE ++ pm, kE7 ++ qd, kD3 ++ fnum, kD5 ++ ds, kD6 ++ ra, kD8 ++ daw,
            kDE ++ dpw, kDF ++ nar, kDJ ++ poc, kDT ++ sv] _
            (endNoWS_kf (by decide) c5.2) (by simp [kEB])
      rw [hstrip]
      have hsplit : splitOnChar FSc (pyJoin FSc [AM07s, kEM ++ q, kD2 ++ psrn,
          kE1 ++ pq, kD7 ++ psid, kSE ++ pm, kE7 ++ qd, kD3 ++ fnum, kD5 ++ ds,
          kD6 ++ ra, kD8 ++ daw, kDE ++ dpw, kDF ++ nar, kDJ ++ poc, kDT ++ sv,
          kEB ++ ov]) = [AM07s, kEM ++ q, kD2 ++ psrn, kE1 ++ pq, kD7 ++ psid,
          kSE ++ pm, kE7 ++ qd, kD3 ++ fnum, kD5 ++ ds, kD6 ++ ra, kD8 ++ daw,
          kDE ++ dpw, kDF ++ nar, kDJ ++ poc, kDT ++ sv, kEB ++ ov] := by
        apply splitOnChar_pyJoin (by simp)
        exact fun p hp => (sepFree_props (hpieces p hp)).1
      unfold parseSegment
      rw [if_neg (pyJoin_ne_nil _ _ (by decide)), hsplit]
      simp [parseSegmentPieces, clmFromValues, getField_cons, getField, Option.or,
        requireF, ensure, kEM, kD2, kE1, kD7, kSE, kE7, kD3, kD5, kD6, kD8, kDE,
        kDF, kDJ, kDT, kEB, AM03s, AM04s, AM01s, AM07s, AM11s, Except.bind,
        except_bind_ok, except_bind_error, except_map_ok, except_map_error, c7, c9,
        c11, c12, c17', hq.2, c10]

/-! ### Separator-freedom of serialized forms -/

theorem sepFree_replicate_space (n : Nat) : sepFree (List.replicate n ' ') = true := by
  rw [sepFree, List.all_eq_true]
  intro c hc
  rw [List.mem_replicate] at hc
  obtain ⟨-, rfl⟩ := hc
  decide

theorem sepFree_pyRJust {v : PyStr} (hv : sepFree v = true) (w : Nat) :
    sepFree (pyRJust w v) = true :=
  sepFree_append (sepFree_replicate_space _) hv

theorem sepFree_pyLJust {v : PyStr} (hv : sepFree v = true) (w : Nat) :
    sepFree (pyLJust w v) = true :=
  sepFree_append hv (sepFree_replicate_space _)

theorem version_sepFree {v : PyStr} (h : v ∈ versionCodes) : sepFree v = true := by
  fin_cases h <;> decide

theorem tc_sepFree {v : PyStr} (h : v ∈ transactionCodes) : sepFree v = true := by
  fin_cases h <;> decide

theorem optPresentOk_sepFree {v : Option PyStr} (h : optPresentOk v = true) :
    sepFree (v.getD []) = true := by
  cases v with
  | none => decide
  | some p =>
    simp only [optPresentOk, Bool.and_eq_true] at h
    exact h.2

theorem headerBlocks_sepFree (h : Header) (hrt : headerRT h = true) :
    sepFree (headerBlocks h) = true := by
  simp only [headerRT, Bool.and_eq_true] at hrt
  obtain ⟨⟨⟨hv, hpcn⟩, hspid⟩, hcert⟩ := hrt
  simp only [headerFieldsValid, Bool.and_eq_true] at hv
  obtain ⟨⟨⟨⟨⟨⟨⟨⟨h1, h2⟩, h3⟩, h4⟩, h5⟩, h6⟩, h7⟩, h8⟩, h9⟩ := hv
  unfold headerBlocks
  refine sepFree_append (sepFree_pyLJust ?_ _) (sepFree_append (sepFree_pyRJust ?_ _)
    (sepFree_append (sepFree_pyRJust ?_ _) (sepFree_append (sepFree_pyLJust ?_ _)
    (sepFree_append (sepFree_pyRJust ?_ _) (sepFree_append (sepFree_pyRJust ?_ _)
    (sepFree_append (sepFree_pyLJust ?_ _) (sepFree_append (sepFree_pyRJust ?_ _)
    (sepFree_pyLJust ?_ _))))))))
  · exact sepFree_of_digits (digits6_props h1).2
  · exact version_sepFree (by simpa using h2)
  · exact tc_sepFree (by simpa using h3)
  · exact optPresentOk_sepFree hpcn
  · exact sepFree_of_digits (count1to9_props h5).2
  · exact sepFree_of_digits (digits1or2_props h6).2
  · exact optPresentOk_sepFree hspid
  · exact sepFree_of_digits (dateShape_props h8).2
  · exact optPresentOk_sepFree hcert

theorem notMem_ser_of_pieces {a : Char} (ha : a ≠ FSc) (values : List PyStr)
    (h : ∀ p ∈ values, sepFree p = true) (ha2 : a = GSc ∨ a = RSc) :
    a ∉ FSc :: pyJoin FSc values := by
  refine segStr_not_mem ha values (fun p hp => ?_)
  rcases ha2 with rfl | rfl
  · exact (sepFree_props (h p hp)).2.1
  · exact (sepFree_props (h p hp)).2.2

theorem listInsertIdx_two (x a b : PyStr) (t : List PyStr) :
    listInsertIdx 2 x (a :: b :: t) = a :: b :: x :: t := rfl

theorem fromString_assembled (h : Header) (hrt : headerRT h = true)
    (raws : List PyStr) (segs : List Segment)
    (hnomem : ∀ r ∈ raws, RSc ∉ r)
    (hparse : pyMapM (fun r => parseSegment (pyStrip r)) raws = .ok (segs.map some))
    (hH : RSc ∉ headerBlocks h) :
    fromString (pyJoin RSc (headerBlocks h :: raws)) = fromSegments h segs := by
  unfold fromString
  rw [splitOnChar_pyJoin (by simp) (by
    intro p hp
    rcases List.mem_cons.mp hp with rfl | hp'
    · exact hH
    · exact hnomem p hp')]
  simp only [List.headD, List.tail_cons, headerRT_parse h hrt, except_bind_ok,
    hparse, List.filterMap_map]
  congr 1
  exact List.filterMap_some segs

set_option maxHeartbeats 2000000 in
/-- C1: for every ClaimMessage built via the model, `from_string(serialize(m))`
returns `m` — amended: this holds for wire-safe models whose optional claim
and pricing attributes are present (`claimSafe`); the unrestricted statement
is refuted by `c1_roundtrip_counterexample`. -/
theorem c1_roundtrip_amended (m : ClaimModel) (hm : claimSafe m = true) :
    ∃ w, serializeClaim m = .ok w ∧ fromString w = .ok m := by
  obtain ⟨hd, ins, pat, clm, prc, preO, phaO, cliO⟩ := m
  simp only [claimSafe, Bool.and_eq_true] at hm
  obtain ⟨⟨⟨⟨⟨⟨⟨hhdr, hins⟩, hpat⟩, hclm⟩, hprc⟩, hpre⟩, hpha⟩, hcli⟩ := hm
  have hval : headerFieldsValid hd = true := by
    simp only [headerRT, Bool.and_eq_true] at hhdr
    exact hhdr.1.1.1
  have hserH := headerSerialize_eq hd hval
  have hH : RSc ∉ headerBlocks hd := (sepFree_props (headerBlocks_sepFree hd hhdr)).2.2
  have nI : RSc ∉ insSerialize ins :=
    notMem_ser_of_pieces (by decide) _ (insValues_sepFree ins hins) (Or.inr rfl)
  have nP : RSc ∉ patSerialize pat ++ [GSc] :=
    not_mem_append (notMem_ser_of_pieces (by decide) _ (patValues_sepFree pat hpat)
      (Or.inr rfl)) (by decide)
  have nC : RSc ∉ clmSerialize clm :=
    notMem_ser_of_pieces (by decide) _ (clmValues_sepFree clm hclm) (Or.inr rfl)
  have nR : RSc ∉ prcSerialize prc :=
    notMem_ser_of_pieces (by decide) _ (prcValues_sepFree prc hprc) (Or.inr rfl)
  rcases preO with _ | pre
  · rcases phaO with _ | pha
    · rcases cliO with _ | cli
      · have hmapM : pyMapM (fun r => parseSegment (pyStrip r)) [insSerialize ins, patSerialize pat ++ [GSc], clmSerialize clm, prcSerialize prc] =
            .ok (([Segment.ins ins, Segment.pat pat, Segment.clm clm, Segment.prc prc]).map some) := by
          simp [pyMapM, except_bind_ok,
            ins_roundtrip ins hins, pat_roundtrip pat hpat, clm_roundtrip clm hclm, prc_roundtrip prc hprc]
        have hassm := fromString_assembled hd hhdr [insSerialize ins, patSerialize pat ++ [GSc], clmSerialize clm, prcSerialize prc]
          [Segment.ins ins, Segment.pat pat, Segment.clm clm, Segment.prc prc]
          (by intro r hr; fin_cases hr; exacts [nI, nP, nC, nR]) hmapM hH
        refine ⟨pyJoin RSc (headerBlocks hd :: [insSerialize ins, patSerialize pat ++ [GSc], clmSerialize clm, prcSerialize prc]), ?_, ?_⟩
        · simp [serializeClaim, hserH, except_bind_ok, listInsertIdx]
        · rw [hassm]
          simp [fromSegments, assignSeg, emptySlots]
      · have hcliS : cliSafe cli = true := hcli
        have nCli : RSc ∉ cliSerialize cli := notMem_ser_of_pieces (by decide) _ (cliValues_sepFree cli hcliS) (Or.inr rfl)
        have hmapM : pyMapM (fun r => parseSegment (pyStrip r)) [insSerialize ins, patSerialize pat ++ [GSc], clmSerialize clm, prcSerialize prc, cliSerialize cli] =
            .ok (([Segment.ins ins, Segment.pat pat, Segment.clm clm, Segment.prc prc, Segment.cli cli]).map some) := by
          simp [pyMapM, except_bind_ok,
            ins_roundtrip ins hins, pat_roundtrip pat hpat, clm_roundtrip clm hclm, prc_roundtrip prc hprc, cli_roundtrip cli hcliS]
        have hassm := fromString_assembled hd hhdr [insSerialize ins, patSerialize pat ++ [GSc], clmSerialize clm, prcSerialize prc, cliSerialize cli]
          [Segment.ins ins, Segment.pat pat, Segment.clm clm, Segment.prc prc, Segment.cli cli]
          (by intro r hr; fin_cases hr; exacts [nI, nP, nC, nR, nCli]) hmapM hH
        refine ⟨pyJoin RSc (headerBlocks hd :: [insSerialize ins, patSerialize pat ++ [GSc], clmSerialize clm, prcSerialize prc, cliSerialize cli]), ?_, ?_⟩
        · simp [serializeClaim, hserH, except_bind_ok, listInsertIdx]
        · rw [hassm]
          simp [fromSegments, assignSeg, emptySlots]
    · rcases cliO with _ | cli
      · have hphaS : phaSafe pha = true := hpha
        have nPha : RSc ∉ phaSerialize pha := notMem_ser_of_pieces (by decide) _ (phaValues_sepFree pha hphaS) (Or.inr rfl)
        have hmapM : pyMapM (fun r => parseSegment (pyStrip r)) [insSerialize ins, patSerialize pat ++ [GSc], clmSerialize clm, prcSerialize prc, phaSerialize pha] =
            .ok (([Segment.ins ins, Segment.pat pat, Segment.clm clm, Segment.prc prc, Segment.pha pha]).map some) := by
          simp [pyMapM, except_bind_ok,
            ins_roundtrip ins hins, pat_roundtrip pat hpat, clm_roundtrip clm hclm, prc_roundtrip prc hprc, pha_roundtrip pha hphaS]
        have hassm := fromString_assembled hd hhdr [insSerialize ins, patSerialize pat ++ [GSc], clmSerialize clm, prcSerialize prc, phaSerialize pha]
          [Segment.ins ins, Segment.pat pat, Segment.clm clm, Segment.prc prc, Segment.pha pha]
          (by intro r hr; fin_cases hr; exacts [nI, nP, nC, nR, nPha]) hmapM hH
        refine ⟨pyJoin RSc (headerBlocks hd :: [insSerialize ins, patSerialize pat ++ [GSc], clmSerialize clm, prcSerialize prc, phaSerialize pha]), ?_, ?_⟩
        · simp [serializeClaim, hserH, except_bind_ok, listInsertIdx]
        · rw [hassm]
          simp [fromSegments, assignSeg, emptySlots]
      · have hphaS : phaSafe pha = true := hpha
        have nPha : RSc ∉ phaSerialize pha := notMem_ser_of_pieces (by decide) _ (phaValues_sepFree pha hphaS) (Or.inr rfl)
        have hcliS : cliSafe cli = true := hcli
        have nCli : RSc ∉ cliSerialize cli := notMem_ser_of_pieces (by decide) _ (cliValues_sepFree cli hcliS) (Or.inr rfl)
        have hmapM : pyMapM (fun r => parseSegment (pyStrip r)) [insSerialize ins, patSerialize pat ++ [GSc], clmSerialize clm, prcSerialize prc, phaSerialize pha, cliSerialize cli] =
            .ok (([Segment.ins ins, Segment.pat pat, Segment.clm clm, Segment.prc prc, Segment.pha pha, Segment.cli cli]).map some) := by
          simp [pyMapM, except_bind_ok,
            ins_roundtrip ins hins, pat_roundtrip pat hpat, clm_roundtrip clm hclm, prc_roundtrip prc hprc, pha_roundtrip pha hphaS, cli_roundtrip cli hcliS]
        have hassm := fromString_assembled hd hhdr [insSerialize ins, patSerialize pat ++ [GSc], clmSerialize clm, prcSerialize prc, phaSerialize pha, cliSerialize cli]
          [Segment.ins ins, Segment.pat pat, Segment.clm clm, Segment.prc prc, Segment.pha pha, Segment.cli cli]
          (by intro r hr; fin_cases hr; exacts [nI, nP, nC, nR, nPha, nCli]) hmapM hH
        refine ⟨pyJoin RSc (headerBlocks hd :: [insSerialize ins, patSerialize pat ++ [GSc], clmSerialize clm, prcSerialize prc, phaSerialize pha, cliSerialize cli]), ?_, ?_⟩
        · simp [serializeClaim, hserH, except_bind_ok, listInsertIdx]
        · rw [hassm]
          simp [fromSegments, assignSeg, emptySlots]
  · rcases phaO with _ | pha
    · rcases cliO with _ | cli
      · have hpreS : preSafe pre = true := hpre
        have nPre : RSc ∉ preSerialize pre := notMem_ser_of_pieces (by decide) _ (preValues_sepFree pre hpreS) (Or.inr rfl)
        have hmapM : pyMapM (fun r => parseSegment (pyStrip r)) [insSerialize ins, patSerialize pat ++ [GSc], clmSerialize clm, prcSerialize prc, preSerialize pre] =
            .ok (([Segment.ins ins, Segment.pat pat, Segment.clm clm, Segment.prc prc, Segment.pre pre]).map some) := by
          simp [pyMapM, except_bind_ok,
            ins_roundtrip ins hins, pat_roundtrip pat hpat, clm_roundtrip clm hclm, prc_roundtrip prc hprc, pre_roundtrip pre hpreS]
        have hassm := fromString_assembled hd hhdr [insSerialize ins, patSerialize pat ++ [GSc], clmSerialize clm, prcSerialize prc, preSerialize pre]
          [Segment.ins ins, Segment.pat pat, Segment.clm clm, Segment.prc prc, Segment.pre pre]
          (by intro r hr; fin_cases hr; exacts [nI, nP, nC, nR, nPre]) hmapM hH
        refine ⟨pyJoin RSc (headerBlocks hd :: [insSerialize ins, patSerialize pat ++ [GSc], clmSerialize clm, prcSerialize prc, preSerialize pre]), ?_, ?_⟩
        · simp [serializeClaim, hserH, except_bind_ok, listInsertIdx]
        · rw [hassm]
          simp [fromSegments, assignSeg, emptySlots]
      · have hpreS : preSafe pre = true := hpre
        have nPre : RSc ∉ preSerialize pre := notMem_ser_of_pieces (by decide) _ (preValues_sepFree pre hpreS) (Or.inr rfl)
        have hcliS : cliSafe cli = true := hcli
        have nCli : RSc ∉ cliSerialize cli := notMem_ser_of_pieces (by decide) _ (cliValues_sepFree cli hcliS) (Or.inr rfl)
        have hmapM : pyMapM (fun r => parseSegment (pyStrip r)) [insSerialize ins, patSerialize pat ++ [GSc], clmSerialize clm, prcSerialize prc, preSerialize pre, cliSerialize cli] =
            .ok (([Segment.ins ins, Segment.pat pat, Segment.clm clm, Segment.prc prc, Segment.pre pre, Segment.cli cli]).map some) := by
          simp [pyMapM, except_bind_ok,
            ins_roundtrip ins hins, pat_roundtrip pat hpat, clm_roundtrip clm hclm, prc_roundtrip prc hprc, pre_roundtrip pre hpreS, cli_roundtrip cli hcliS]
        have hassm := fromString_assembled hd hhdr [insSerialize ins, patSerialize pat ++ [GSc], clmSerialize clm, prcSerialize prc, preSerialize pre, cliSerialize cli]
          [Segment.ins ins, Segment.pat pat, Segment.clm clm, Segment.prc prc, Segment.pre pre, Segment.cli cli]
          (by intro r hr; fin_cases hr; exacts [nI, nP, nC, nR, nPre, nCli]) hmapM hH
        refine ⟨pyJoin RSc (headerBlocks hd :: [insSerialize ins, patSerialize pat ++ [GSc], clmSerialize clm, prcSerialize prc, preSerialize pre, cliSerialize cli]), ?_, ?_⟩
        · simp [serializeClaim, hserH, except_bind_ok, listInsertIdx]
        · rw [hassm]
          simp [fromSegments, assignSeg, emptySlots]
    · rcases cliO with _ | cli
      · have hpreS : preSafe pre = true := hpre
        have nPre : RSc ∉ preSerialize pre := notMem_ser_of_pieces (by decide) _ (preValues_sepFree pre hpreS) (Or.inr rfl)
        have hphaS : phaSafe pha = true := hpha
        have nPha : RSc ∉ phaSerialize pha := notMem_ser_of_pieces (by decide) _ (phaValues_sepFree pha hphaS) (Or.inr rfl)
        have hmapM : pyMapM (fun r => parseSegment (pyStrip r)) [insSerialize ins, patSerialize pat ++ [GSc], clmSerialize clm, prcSerialize prc, preSerialize pre, phaSerialize pha] =
            .ok (([Segment.ins ins, Segment.pat pat, Segment.clm clm, Segment.prc prc, Segment.pre pre, Segment.pha pha]).map some) := by
          simp [pyMapM, except_bind_ok,
            ins_roundtrip ins hins, pat_roundtrip pat hpat, clm_roundtrip clm hclm, prc_roundtrip prc hprc, pre_roundtrip pre hpreS, pha_roundtrip pha hphaS]
        have hassm := fromString_assembled hd hhdr [insSerialize ins, patSerialize pat ++ [GSc], clmSerialize clm, prcSerialize prc, preSerialize pre, phaSerialize pha]
          [Segment.ins ins, Segment.pat pat, Segment.clm clm, Segment.prc prc, Segment.pre pre, Segment.pha pha]
          (by intro r hr; fin_cases hr; exacts [nI, nP, nC, nR, nPre, nPha]) hmapM hH
        refine ⟨pyJoin RSc (headerBlocks hd :: [insSerialize ins, patSerialize pat ++ [GSc], clmSerialize clm, prcSerialize prc, preSerialize pre, phaSerialize pha]), ?_, ?_⟩
        · simp [serializeClaim, hserH, except_bind_ok, listInsertIdx]
        · rw [hassm]
          simp [fromSegments, assignSeg, emptySlots]
      · have hpreS : preSafe pre = true := hpre
        have nPre : RSc ∉ preSerialize pre := notMem_ser_of_pieces (by decide) _ (preValues_sepFree pre hpreS) (Or.inr rfl)
        have hphaS : phaSafe pha = true := hpha
        have nPha : RSc ∉ phaSerialize pha := notMem_ser_of_pieces (by decide) _ (phaValues_sepFree pha hphaS) (Or.inr rfl)
        have hcliS : cliSafe cli = true := hcli
        have nCli : RSc ∉ cliSerialize cli := notMem_ser_of_pieces (by decide) _ (cliValues_sepFree cli hcliS) (Or.inr rfl)
        have hmapM : pyMapM (fun r => parseSegment (pyStrip r)) [insSerialize ins, patSerialize pat ++ [GSc], clmSerialize clm, prcSerialize prc, preSerialize pre, phaSerialize pha, cliSerialize cli] =
            .ok (([Segment.ins ins, Segment.pat pat, Segment.clm clm, Segment.prc prc, Segment.pre pre, Segment.pha pha, Segment.cli cli]).map some) := by
          simp [pyMapM, except_bind_ok,
            ins_roundtrip ins hins, pat_roundtrip pat hpat, clm_roundtrip clm hclm, prc_roundtrip prc hprc, pre_roundtrip pre hpreS, pha_roundtrip pha hphaS, cli_roundtrip cli hcliS]
        have hassm := fromString_assembled hd hhdr [insSerialize ins, patSerialize pat ++ [GSc], clmSerialize clm, prcSerialize prc, preSerialize pre, phaSerialize pha, cliSerialize cli]
          [Segment.ins ins, Segment.pat pat, Segment.clm clm, Segment.prc prc, Segment.pre pre, Segment.pha pha, Segment.cli cli]
          (by intro r hr; fin_cases hr; exacts [nI, nP, nC, nR, nPre, nPha, nCli]) hmapM hH
        refine ⟨pyJoin RSc (headerBlocks hd :: [insSerialize ins, patSerialize pat ++ [GSc], clmSerialize clm, prcSerialize prc, preSerialize pre, phaSerialize pha, cliSerialize cli]), ?_, ?_⟩
        · simp [serializeClaim, hserH, except_bind_ok, listInsertIdx]
        · rw [hassm]
          simp [fromSegments, assignSeg, emptySlots]

/-! ### Last-one-wins aggregation -/

theorem lastOf_cons {α : Type} (f : Segment → Option α) (sg : Segment)
    (t : List Segment) (init : Option α) :
    lastOf f (sg :: t) init =
      lastOf f t (match f sg with | some x => some x | none => init) := rfl

theorem getLast?_cons_or {α : Type} (x : α) (l : List α) :
    (x :: l).getLast? = (l.getLast?).or (some x) := by
  cases l with
  | nil => rfl
  | cons a t =>
    rw [List.getLast?_cons_cons]
    have hne : (a :: t) ≠ [] := by simp
    obtain ⟨y, hy⟩ := Option.isSome_iff_exists.mp (List.getLast?_isSome.mpr hne)
    rw [hy]
    rfl

theorem lastOf_filterMap {α : Type} (f : Segment → Option α) :
    ∀ (segs : List Segment) (init : Option α),
      lastOf f segs init = ((segs.filterMap f).getLast?).or init
  | [], _ => by simp [lastOf]
  | sg :: t, init => by
    rw [lastOf_cons, lastOf_filterMap f t]
    cases hf : f sg with
    | none => simp [List.filterMap_cons, hf]
    | some x =>
      simp only [List.filterMap_cons, hf, getLast?_cons_or]
      cases (t.filterMap f).getLast? <;> rfl

theorem foldl_assign_ins : ∀ (segs : List Segment) (st : Slots),
    (segs.foldl assignSeg st).ins = lastOf segIns segs st.ins
  | [], _ => rfl
  | sg :: t, st => by
    rw [List.foldl_cons, lastOf_cons, foldl_assign_ins t]
    cases sg <;> rfl

theorem foldl_assign_pat : ∀ (segs : List Segment) (st : Slots),
    (segs.foldl assignSeg st).pat = lastOf segPat segs st.pat
  | [], _ => rfl
  | sg :: t, st => by
    rw [List.foldl_cons, lastOf_cons, foldl_assign_pat t]
    cases sg <;> rfl

theorem foldl_assign_clm : ∀ (segs : List Segment) (st : Slots),
    (segs.foldl assignSeg st).clm = lastOf segClm segs st.clm
  | [], _ => rfl
  | sg :: t, st => by
    rw [List.foldl_cons, lastOf_cons, foldl_assign_clm t]
    cases sg <;> rfl

theorem foldl_assign_prc : ∀ (segs : List Segment) (st : Slots),
    (segs.foldl assignSeg st).prc = lastOf segPrc segs st.prc
  | [], _ => rfl
  | sg :: t, st => by
    rw [List.foldl_cons, lastOf_cons, foldl_assign_prc t]
    cases sg <;> rfl

theorem foldl_assign_pre : ∀ (segs : List Segment) (st : Slots),
    (segs.foldl assignSeg st).pre = lastOf segPre segs st.pre
  | [], _ => rfl
  | sg :: t, st => by
    rw [List.foldl_cons, lastOf_cons, foldl_assign_pre t]
    cases sg <;> rfl

theorem foldl_assign_pha : ∀ (segs : List Segment) (st : Slots),
    (segs.foldl assignSeg st).pha = lastOf segPha segs st.pha
  | [], _ => rfl
  | sg :: t, st => by
    rw [List.foldl_cons, lastOf_cons, foldl_assign_pha t]
    cases sg <;> rfl

theorem foldl_assign_cli : ∀ (segs : List Segment) (st : Slots),
    (segs.foldl assignSeg st).cli = lastOf segCli segs st.cli
  | [], _ => rfl
  | sg :: t, st => by
    rw [List.foldl_cons, lastOf_cons, foldl_assign_cli t]
    cases sg <;> rfl

/-- C5: two or more variants of the same segment type make `from_segments`
fail with a `DuplicateSegment` error — amended: the source defines no such
error; the dict sweep silently keeps the *last* variant of every type, and
construction succeeds whenever the four required types occur at all
(`c5_duplicates_counterexample` exhibits the silent overwrite). -/
theorem c5_last_wins_amended (h : Header) (segs : List Segment)
    (i : InsuranceSeg) (p : PatientSeg) (c : ClaimSeg) (pr : PricingSeg)
    (hi : (segs.filterMap segIns).getLast? = some i)
    (hp : (segs.filterMap segPat).getLast? = some p)
    (hc : (segs.filterMap segClm).getLast? = some c)
    (hr : (segs.filterMap segPrc).getLast? = some pr) :
    fromSegments h segs =
      .ok ⟨h, i, p, c, pr, (segs.filterMap segPre).getLast?,
           (segs.filterMap segPha).getLast?, (segs.filterMap segCli).getLast?⟩ := by
  have eIns : (segs.foldl assignSeg emptySlots).ins = some i :=
    ((foldl_assign_ins segs emptySlots).trans
      ((lastOf_filterMap segIns segs none).trans Option.or_none)).trans hi
  have ePat : (segs.foldl assignSeg emptySlots).pat = some p :=
    ((foldl_assign_pat segs emptySlots).trans
      ((lastOf_filterMap segPat segs none).trans Option.or_none)).trans hp
  have eClm : (segs.foldl assignSeg emptySlots).clm = some c :=
    ((foldl_assign_clm segs emptySlots).trans
      ((lastOf_filterMap segClm segs none).trans Option.or_none)).trans hc
  have ePrc : (segs.foldl assignSeg emptySlots).prc = some pr :=
    ((foldl_assign_prc segs emptySlots).trans
      ((lastOf_filterMap segPrc segs none).trans Option.or_none)).trans hr
  have ePre : (segs.foldl assignSeg emptySlots).pre =
      (segs.filterMap segPre).getLast? :=
    (foldl_assign_pre segs emptySlots).trans
      ((lastOf_filterMap segPre segs none).trans Option.or_none)
  have ePha : (segs.foldl assignSeg emptySlots).pha =
      (segs.filterMap segPha).getLast? :=
    (foldl_assign_pha segs emptySlots).trans
      ((lastOf_filterMap segPha segs none).trans Option.or_none)
  have eCli : (segs.foldl assignSeg emptySlots).cli =
      (segs.filterMap segCli).getLast? :=
    (foldl_assign_cli segs emptySlots).trans
      ((lastOf_filterMap segCli segs none).trans Option.or_none)
  simp only [fromSegments, eIns, ePat, eClm, ePrc, ePre, ePha, eCli]

/-- C5 counterexample: a segment list with two insurance variants is
accepted by `from_segments`, which silently keeps the second one instead
of raising any duplicate-segment error. -/
theorem c5_duplicates_counterexample :
    fromSegments sampleHeader c5segs =
      .ok ⟨sampleHeader, sampleIns2, samplePat, sampleClm, samplePrc,
           some samplePre, none, none⟩ := by decide

/-- Witness: the last-one-wins law evaluated on the duplicate-insurance
segment list. -/
theorem c5_last_wins_witness :
    (c5segs.filterMap segIns).getLast? = some sampleIns2 ∧
    (c5segs.filterMap segPat).getLast? = some samplePat ∧
    (c5segs.filterMap segClm).getLast? = some sampleClm ∧
    (c5segs.filterMap segPrc).getLast? = some samplePrc ∧
    fromSegments sampleHeader c5segs =
      .ok ⟨sampleHeader, sampleIns2, samplePat, sampleClm, samplePrc,
           (c5segs.filterMap segPre).getLast?,
           (c5segs.filterMap segPha).getLast?,
           (c5segs.filterMap segCli).getLast?⟩ :=
  ⟨by decide, by decide, by decide, by decide,
   c5_last_wins_amended sampleHeader c5segs sampleIns2 samplePat sampleClm
     samplePrc (by decide) (by decide) (by decide) (by decide)⟩

/-! ### The remaining claims about the header and the overpunch codec -/

/-- C1 counterexample: a model whose claim segment has
`other_coverage_code` absent serializes the literal `None`, which parses
back as the four-character string value, so the round trip returns a
different model. -/
theorem c1_roundtrip_counterexample :
    (serializeClaim sampleClaimNoOcc).bind fromString ≠ .ok sampleClaimNoOcc ∧
    (serializeClaim sampleClaimNoOcc).bind fromString =
      .ok { sampleClaimNoOcc with
              claim := { sampleClaimNoOcc.claim with
                           other_coverage_code := some NoneLit } } := by decide

/-- Witness: the amended claim-level round trip evaluated on the fully
populated sample claim. -/
theorem c1_roundtrip_witness :
    claimSafe sampleClaim = true ∧
    ∃ w, serializeClaim sampleClaim = .ok w ∧ fromString w = .ok sampleClaim :=
  ⟨by decide, c1_roundtrip_amended sampleClaim (by decide)⟩

/-- C2: header serialize is a left inverse of header parse on accepted
56-character strings — amended: it holds exactly for canonically padded
layouts; the code left-pads the 2-wide `service_provider_id_qualifier`
where the spec's table says right-pad, so an accepted right-padded
one-digit qualifier re-serializes differently
(`c2_layout_counterexample`). -/
theorem c2_canonical_roundtrip {s : PyStr} {h : Header} (hlen : s.length = 56)
    (hp : headerParse s = .ok h) (hc : headerCanonical s = true) :
    headerSerialize h = .ok s :=
  headerCanonical_serialize hlen hp hc

/-- C2 counterexample: `c2str` is 56 characters and parses successfully,
but re-serialization left-pads the one-digit qualifier and returns a
different string. -/
theorem c2_layout_counterexample :
    c2str.length = 56 ∧ headerParse c2str = .ok (headerParseRaw c2str) ∧
    (headerParse c2str).bind headerSerialize ≠ .ok c2str := by decide

/-- Witness: the canonical round trip evaluated on the sample header's
serialized form. -/
theorem c2_canonical_roundtrip_witness :
    (headerBlocks sampleHeader).length = 56 ∧
    headerParse (headerBlocks sampleHeader) = .ok sampleHeader ∧
    headerCanonical (headerBlocks sampleHeader) = true ∧
    headerSerialize sampleHeader = .ok (headerBlocks sampleHeader) :=
  ⟨by decide, by decide, by decide,
   c2_canonical_roundtrip (by decide) (by decide) (by decide)⟩

/-- C3: decode∘encode is the identity on [-9999999999, 9999999999] — this
fails in the code: the `-0` key of the encode dict literal is the same
Python int as `0` and rebinds the last-digit-0 entry to the negative
form, so `encode(10) = "1}"`, which decodes to `-10`. -/
theorem c3_decode_encode_bug :
    (-9999999999 : Int) ≤ 10 ∧ (10 : Int) ≤ 9999999999 ∧
    encodeOverpunch 10 = ['1', '}'] ∧
    decodeOverpunch (encodeOverpunch 10) = .ok (some (-10)) := by decide

/-- C4: `encode(0)` canonicalizes to `"{"` and encode never emits `"}"` —
this fails in the code: the colliding `-0` dict key rebinds the signed
digit 0 to `"}"`, so `encode(0) = "}"` and every value with last digit 0
ends in `"}"`. -/
theorem c4_encode_zero_bug :
    encodeOverpunch 0 = ['}'] ∧ encodeOverpunch 0 ≠ ['{'] ∧
    (encodeOverpunch 20).getLast? = some '}' := by decide

/-- C9: every input shorter than 56 characters is rejected by the header
parser with the short-input error. -/
theorem c9_short_input (s : PyStr) (h : s.length < 56) :
    headerParse s = .error .shortInput := by
  simp [headerParse, headerLength, h]

/-- Witness: the empty string is shorter than 56 characters and is
rejected as short input. -/
theorem c9_short_input_witness :
    ([] : PyStr).length < 56 ∧ headerParse [] = .error .shortInput :=
  ⟨by decide, c9_short_input [] (by decide)⟩

/-- C10: an absent optional attribute — claim `special_packaging_indicator`
(key DT), claim `other_coverage_code` (key EB), pricing
`professional_service_fee_submitted` (key E3) — is still serialized as its
key piece with the literal value `None` rather than omitted. -/
theorem c10_none_literal (c : ClaimSeg) (p : PricingSeg)
    (hspi : c.special_packaging_indicator = none)
    (hocc : c.other_coverage_code = none)
    (hpsf : p.professional_service_fee_submitted = none) :
    (kDT ++ NoneLit) ∈ clmValues c ∧ (kEB ++ NoneLit) ∈ clmValues c ∧
    (kE3 ++ NoneLit) ∈ prcValues p ∧
    clmSerialize c = FSc :: pyJoin FSc (clmValues c) ∧
    prcSerialize p = FSc :: pyJoin FSc (prcValues p) := by
  refine ⟨?_, ?_, ?_, rfl, rfl⟩ <;>
    simp [clmValues, prcValues, hspi, hocc, hpsf, optShow]

/-- Witness: the `None` pieces of the sample segments with the optional
attributes removed. -/
theorem c10_none_literal_witness :
    (kDT ++ NoneLit) ∈ clmValues c10clm ∧ (kEB ++ NoneLit) ∈ clmValues c10clm ∧
    (kE3 ++ NoneLit) ∈ prcValues c10prc ∧
    clmSerialize c10clm = FSc :: pyJoin FSc (clmValues c10clm) ∧
    prcSerialize c10prc = FSc :: pyJoin FSc (prcValues c10prc) :=
  c10_none_literal c10clm c10prc rfl rfl rfl

/-! ### Serializer layout -/

set_option maxHeartbeats 1000000 in
/-- C6: the claim serializer emits the header and the present segments
joined by the segment separator in the canonical order Insurance,
Patient, Claim, Pricing, Prescriber, PharmacyProvider, Clinical, and the
output contains exactly one group separator, placed immediately after
the Patient segment's payload and immediately before the following
segment separator — amended: stated for wire-safe models; an attribute
value carrying a group-separator byte of its own defeats the
exactly-one-group-separator part (`c6_layout_counterexample`). -/
theorem c6_serialize_layout (m : ClaimModel) (hm : claimSafe m = true) :
    ∃ out, serializeClaim m = .ok out ∧
      out = pyJoin RSc
        (headerBlocks m.header :: insSerialize m.insurance ::
         (patSerialize m.patient ++ [GSc]) :: clmSerialize m.claim ::
         prcSerialize m.pricing ::
         ((m.prescriber.map preSerialize).toList ++
          (m.pharmacy_provider.map phaSerialize).toList ++
          (m.clinical.map cliSerialize).toList)) ∧
      out.count GSc = 1 ∧
      ∃ pre post, out = pre ++ patSerialize m.patient ++ GSc :: RSc :: post := by
  obtain ⟨hd, ins, pat, clm, prc, preO, phaO, cliO⟩ := m
  simp only [claimSafe, Bool.and_eq_true] at hm
  obtain ⟨⟨⟨⟨⟨⟨⟨hhdr, hins⟩, hpat⟩, hclm⟩, hprc⟩, hpre⟩, hpha⟩, hcli⟩ := hm
  have hval : headerFieldsValid hd = true := by
    simp only [headerRT, Bool.and_eq_true] at hhdr
    exact hhdr.1.1.1
  have hserH := headerSerialize_eq hd hval
  have hG0 : GSc ∉ headerBlocks hd :=
    (sepFree_props (headerBlocks_sepFree hd hhdr)).2.1
  have hG1 : GSc ∉ insSerialize ins :=
    notMem_ser_of_pieces (by decide) _ (insValues_sepFree ins hins) (Or.inl rfl)
  have hGP : GSc ∉ patSerialize pat :=
    notMem_ser_of_pieces (by decide) _ (patValues_sepFree pat hpat) (Or.inl rfl)
  have hG3 : GSc ∉ clmSerialize clm :=
    notMem_ser_of_pieces (by decide) _ (clmValues_sepFree clm hclm) (Or.inl rfl)
  have hG4 : GSc ∉ prcSerialize prc :=
    notMem_ser_of_pieces (by decide) _ (prcValues_sepFree prc hprc) (Or.inl rfl)
  have hGopts : ∀ q ∈ (preO.map preSerialize).toList ++
      (phaO.map phaSerialize).toList ++ (cliO.map cliSerialize).toList,
      GSc ∉ q := by
    intro q hq
    simp only [List.mem_append] at hq
    rcases hq with (hq | hq) | hq
    · cases preO with
      | none => simp at hq
      | some s =>
        have hs : preSafe s = true := hpre
        have : q = preSerialize s := by simpa using hq
        subst this
        exact notMem_ser_of_pieces (by decide) _ (preValues_sepFree s hs)
          (Or.inl rfl)
    · cases phaO with
      | none => simp at hq
      | some s =>
        have hs : phaSafe s = true := hpha
        have : q = phaSerialize s := by simpa using hq
        subst this
        exact notMem_ser_of_pieces (by decide) _ (phaValues_sepFree s hs)
          (Or.inl rfl)
    · cases cliO with
      | none => simp at hq
      | some s =>
        have hs : cliSafe s = true := hcli
        have : q = cliSerialize s := by simpa using hq
        subst this
        exact notMem_ser_of_pieces (by decide) _ (cliValues_sepFree s hs)
          (Or.inl rfl)
  have hGrest : GSc ∉ pyJoin RSc (clmSerialize clm :: prcSerialize prc ::
      ((preO.map preSerialize).toList ++ (phaO.map phaSerialize).toList ++
       (cliO.map cliSerialize).toList)) := by
    apply not_mem_pyJoin (by decide)
    intro p hp
    rcases List.mem_cons.mp hp with rfl | hp'
    · exact hG3
    rcases List.mem_cons.mp hp' with rfl | hp''
    · exact hG4
    · exact hGopts p hp''
  have hout : pyJoin RSc
      (headerBlocks hd :: insSerialize ins ::
       (patSerialize pat ++ [GSc]) :: clmSerialize clm :: prcSerialize prc ::
       ((preO.map preSerialize).toList ++ (phaO.map phaSerialize).toList ++
        (cliO.map cliSerialize).toList)) =
      headerBlocks hd ++ RSc :: (insSerialize ins ++ RSc ::
        ((patSerialize pat ++ [GSc]) ++ RSc ::
          pyJoin RSc (clmSerialize clm :: prcSerialize prc ::
            ((preO.map preSerialize).toList ++ (phaO.map phaSerialize).toList ++
             (cliO.map cliSerialize).toList)))) := rfl
  have hGR : (GSc == RSc) = false := by decide
  have hGG : (GSc == GSc) = true := by decide
  refine ⟨pyJoin RSc
      (headerBlocks hd :: insSerialize ins ::
       (patSerialize pat ++ [GSc]) :: clmSerialize clm :: prcSerialize prc ::
       ((preO.map preSerialize).toList ++ (phaO.map phaSerialize).toList ++
        (cliO.map cliSerialize).toList)), ?_, rfl, ?_, ?_⟩
  · simp [serializeClaim, hserH, except_bind_ok, listInsertIdx]
  · rw [hout]
    have h0 : List.count GSc (pyJoin RSc (clmSerialize clm :: prcSerialize prc ::
        ((preO.map preSerialize).toList ++ ((phaO.map phaSerialize).toList ++
         (cliO.map cliSerialize).toList)))) = 0 :=
      List.count_eq_zero.mpr (by rw [← List.append_assoc]; exact hGrest)
    have hRG : ¬ (RSc = GSc) := by decide
    simp [List.count_append, List.count_cons, hGR, hGG, hRG,
      List.count_eq_zero.mpr hG0, List.count_eq_zero.mpr hG1,
      List.count_eq_zero.mpr hGP, h0]
  · refine ⟨headerBlocks hd ++ RSc :: insSerialize ins ++ [RSc],
      pyJoin RSc (clmSerialize clm :: prcSerialize prc ::
        ((preO.map preSerialize).toList ++ (phaO.map phaSerialize).toList ++
         (cliO.map cliSerialize).toList)), ?_⟩
    rw [hout]
    simp [List.append_assoc]

/-- C6 counterexample: nothing stops an attribute value from containing
the group-separator byte itself, and then the serialized claim holds two
group separators, not exactly one. -/
theorem c6_layout_counterexample :
    (serializeClaim c6bad).map (fun out => List.count GSc out) = .ok 2 := by
  decide

/-- Witness: the serializer layout evaluated on the fully populated sample
claim. -/
theorem c6_serialize_layout_witness :
    claimSafe sampleClaim = true ∧
    ∃ out, serializeClaim sampleClaim = .ok out ∧
      out = pyJoin RSc
        (headerBlocks sampleClaim.header :: insSerialize sampleClaim.insurance ::
         (patSerialize sampleClaim.patient ++ [GSc]) ::
         clmSerialize sampleClaim.claim :: prcSerialize sampleClaim.pricing ::
         ((sampleClaim.prescriber.map preSerialize).toList ++
          (sampleClaim.pharmacy_provider.map phaSerialize).toList ++
          (sampleClaim.clinical.map cliSerialize).toList)) ∧
      out.count GSc = 1 ∧
      ∃ pre post,
        out = pre ++ patSerialize sampleClaim.patient ++ GSc :: RSc :: post :=
  ⟨by decide, c6_serialize_layout sampleClaim (by decide)⟩

/-! ### Forward compatibility of segment parsing -/

theorem getField_middle (key : PyStr) (l₁ : List PyStr) (p : PyStr)
    (l₂ : List PyStr) (hp : p.take 2 ≠ key) :
    getField key (l₁ ++ p :: l₂) = getField key (l₁ ++ l₂) := by
  simp [getField, List.filter_append, List.filter_cons, hp]

theorem parseSegmentPieces_cons (sid : PyStr) (vs : List PyStr) :
    parseSegmentPieces (sid :: vs) =
      if sid = AM04s then (insFromValues vs).map (fun s => some (.ins s))
      else if sid = AM01s then (patFromValues vs).map (fun s => some (.pat s))
      else if sid = AM07s then (clmFromValues vs).map (fun s => some (.clm s))
      else if sid = AM11s then (prcFromValues vs).map (fun s => some (.prc s))
      else if sid = AM03s then (preFromValues vs).map (fun s => some (.pre s))
      else if sid = AM06s then (phaFromValues vs).map (fun s => some (.pha s))
      else if sid = AM08s then (cliFromValues vs).map (fun s => some (.cli s))
      else .ok none := rfl

theorem insFromValues_middle (l₁ : List PyStr) (p : PyStr) (l₂ : List PyStr)
    (hp : p.take 2 ∉ keysOf AM04s) :
    insFromValues (l₁ ++ p :: l₂) = insFromValues (l₁ ++ l₂) := by
  have h1 : p.take 2 ≠ kC1 := fun e => hp (by rw [e]; decide)
  have h2 : p.take 2 ≠ kC2 := fun e => hp (by rw [e]; decide)
  have h3 : p.take 2 ≠ kC3 := fun e => hp (by rw [e]; decide)
  have h4 : p.take 2 ≠ kA6 := fun e => hp (by rw [e]; decide)
  have h5 : p.take 2 ≠ kA7 := fun e => hp (by rw [e]; decide)
  unfold insFromValues
  rw [getField_middle kC1 l₁ p l₂ h1, getField_middle kC2 l₁ p l₂ h2,
    getField_middle kC3 l₁ p l₂ h3, getField_middle kA6 l₁ p l₂ h4,
    getField_middle kA7 l₁ p l₂ h5]

theorem patFromValues_middle (l₁ : List PyStr) (p : PyStr) (l₂ : List PyStr)
    (hp : p.take 2 ∉ keysOf AM01s) :
    patFromValues (l₁ ++ p :: l₂) = patFromValues (l₁ ++ l₂) := by
  have h1 : p.take 2 ≠ kC4 := fun e => hp (by rw [e]; decide)
  have h2 : p.take 2 ≠ kC5 := fun e => hp (by rw [e]; decide)
  have h3 : p.take 2 ≠ kCA := fun e => hp (by rw [e]; decide)
  have h4 : p.take 2 ≠ kCB := fun e => hp (by rw [e]; decide)
  have h5 : p.take 2 ≠ kCP := fun e => hp (by rw [e]; decide)
  unfold patFromValues
  rw [getField_middle kC4 l₁ p l₂ h1, getField_middle kC5 l₁ p l₂ h2,
    getField_middle kCA l₁ p l₂ h3, getField_middle kCB l₁ p l₂ h4,
    getField_middle kCP l₁ p l₂ h5]

theorem clmFromValues_middle (l₁ : List PyStr) (p : PyStr) (l₂ : List PyStr)
    (hp : p.take 2 ∉ keysOf AM07s) :
    clmFromValues (l₁ ++ p :: l₂) = clmFromValues (l₁ ++ l₂) := by
  have h1 : p.take 2 ≠ kEM := fun e => hp (by rw [e]; decide)
  have h2 : p.take 2 ≠ kD2 := fun e => hp (by rw [e]; decide)
  have h3 : p.take 2 ≠ kE1 := fun e => hp (by rw [e]; decide)
  have h4 : p.take 2 ≠ kD7 := fun e => hp (by rw [e]; decide)
  have h5 : p.take 2 ≠ kE7 := fun e => hp (by rw [e]; decide)
  have h6 : p.take 2 ≠ kD3 := fun e => hp (by rw [e]; decide)
  have h7 : p.take 2 ≠ kSE := fun e => hp (by rw [e]; decide)
  have h8 : p.take 2 ≠ kD5 := fun e => hp (by rw [e]; decide)
  have h9 : p.take 2 ≠ kD8 := fun e => hp (by rw [e]; decide)
  have h10 : p.take 2 ≠ kDE := fun e => hp (by rw [e]; decide)
  have h11 : p.take 2 ≠ kD6 := fun e => hp (by rw [e]; decide)
  have h12 : p.take 2 ≠ kDF := fun e => hp (by rw [e]; decide)
  have h13 : p.take 2 ≠ kDJ := fun e => hp (by rw [e]; decide)
  have h14 : p.take 2 ≠ kDT := fun e => hp (by rw [e]; decide)
  have h15 : p.take 2 ≠ kEB := fun e => hp (by rw [e]; decide)
  unfold clmFromValues
  rw [getField_middle kEM l₁ p l₂ h1, getField_middle kD2 l₁ p l₂ h2,
    getField_middle kE1 l₁ p l₂ h3, getField_middle kD7 l₁ p l₂ h4,
    getField_middle kE7 l₁ p l₂ h5, getField_middle kD3 l₁ p l₂ h6,
    getField_middle kSE l₁ p l₂ h7, getField_middle kD5 l₁ p l₂ h8,
    getField_middle kD8 l₁ p l₂ h9, getField_middle kDE l₁ p l₂ h10,
    getField_middle kD6 l₁ p l₂ h11, getField_middle kDF l₁ p l₂ h12,
    getField_middle kDJ l₁ p l₂ h13, getField_middle kDT l₁ p l₂ h14,
    getField_middle kEB l₁ p l₂ h15]

theorem prcFromValues_middle (l₁ : List PyStr) (p : PyStr) (l₂ : List PyStr)
    (hp : p.take 2 ∉ keysOf AM11s) :
    prcFromValues (l₁ ++ p :: l₂) = prcFromValues (l₁ ++ l₂) := by
  have h1 : p.take 2 ≠ kD9 := fun e => hp (by rw [e]; decide)
  have h2 : p.take 2 ≠ kDC := fun e => hp (by rw [e]; decide)
  have h3 : p.take 2 ≠ kE3 := fun e => hp (by rw [e]; decide)
  have h4 : p.take 2 ≠ kDQ := fun e => hp (by rw [e]; decide)
  have h5 : p.take 2 ≠ kDU := fun e => hp (by rw [e]; decide)
  unfold prcFromValues
  rw [getField_middle kD9 l₁ p l₂ h1, getField_middle kDC l₁ p l₂ h2,
    getField_middle kE3 l₁ p l₂ h3, getField_middle kDQ l₁ p l₂ h4,
    getField_middle kDU l₁ p l₂ h5]

theorem preFromValues_middle (l₁ : List PyStr) (p : PyStr) (l₂ : List PyStr)
    (hp : p.take 2 ∉ keysOf AM03s) :
    preFromValues (l₁ ++ p :: l₂) = preFromValues (l₁ ++ l₂) := by
  have h1 : p.take 2 ≠ kEZ := fun e => hp (by rw [e]; decide)
  have h2 : p.take 2 ≠ kDB := fun e => hp (by rw [e]; decide)
  unfold preFromValues
  rw [getField_middle kEZ l₁ p l₂ h1, getField_middle kDB l₁ p l₂ h2]

theorem phaFromValues_middle (l₁ : List PyStr) (p : PyStr) (l₂ : List PyStr)
    (hp : p.take 2 ∉ keysOf AM06s) :
    phaFromValues (l₁ ++ p :: l₂) = phaFromValues (l₁ ++ l₂) := by
  have h1 : p.take 2 ≠ kDZ := fun e => hp (by rw [e]; decide)
  unfold phaFromValues
  rw [getField_middle kDZ l₁ p l₂ h1]

theorem cliFromValues_middle (l₁ : List PyStr) (p : PyStr) (l₂ : List PyStr)
    (hp : p.take 2 ∉ keysOf AM08s) :
    cliFromValues (l₁ ++ p :: l₂) = cliFromValues (l₁ ++ l₂) := by
  have h1 : p.take 2 ≠ kSevenE := fun e => hp (by rw [e]; decide)
  have h2 : p.take 2 ≠ kE5 := fun e => hp (by rw [e]; decide)
  unfold cliFromValues
  rw [getField_middle kSevenE l₁ p l₂ h1, getField_middle kE5 l₁ p l₂ h2]

/-- C7: inside a recognized segment a field piece whose two-character key
is not in the variant's key map is skipped silently, and a raw segment
whose identifier matches no registered class parses to no variant; in both
cases parsing succeeds instead of failing. -/
theorem c7_forward_compat :
    (∀ (sid : PyStr) (l₁ : List PyStr) (p : PyStr) (l₂ : List PyStr),
       p.take 2 ∉ keysOf sid →
       parseSegmentPieces (sid :: (l₁ ++ p :: l₂)) =
         parseSegmentPieces (sid :: (l₁ ++ l₂))) ∧
    (∀ raw : PyStr, raw ≠ [] → (splitOnChar FSc raw).headD [] ∉ knownIds →
       parseSegment raw = .ok none) := by
  constructor
  · intro sid l₁ p l₂ hp
    by_cases e1 : sid = AM04s
    · subst e1
      show (insFromValues (l₁ ++ p :: l₂)).map (fun s => some (Segment.ins s)) =
        (insFromValues (l₁ ++ l₂)).map (fun s => some (Segment.ins s))
      rw [insFromValues_middle l₁ p l₂ hp]
    by_cases e2 : sid = AM01s
    · subst e2
      show (patFromValues (l₁ ++ p :: l₂)).map (fun s => some (Segment.pat s)) =
        (patFromValues (l₁ ++ l₂)).map (fun s => some (Segment.pat s))
      rw [patFromValues_middle l₁ p l₂ hp]
    by_cases e3 : sid = AM07s
    · subst e3
      show (clmFromValues (l₁ ++ p :: l₂)).map (fun s => some (Segment.clm s)) =
        (clmFromValues (l₁ ++ l₂)).map (fun s => some (Segment.clm s))
      rw [clmFromValues_middle l₁ p l₂ hp]
    by_cases e4 : sid = AM11s
    · subst e4
      show (prcFromValues (l₁ ++ p :: l₂)).map (fun s => some (Segment.prc s)) =
        (prcFromValues (l₁ ++ l₂)).map (fun s => some (Segment.prc s))
      rw [prcFromValues_middle l₁ p l₂ hp]
    by_cases e5 : sid = AM03s
    · subst e5
      show (preFromValues (l₁ ++ p :: l₂)).map (fun s => some (Segment.pre s)) =
        (preFromValues (l₁ ++ l₂)).map (fun s => some (Segment.pre s))
      rw [preFromValues_middle l₁ p l₂ hp]
    by_cases e6 : sid = AM06s
    · subst e6
      show (phaFromValues (l₁ ++ p :: l₂)).map (fun s => some (Segment.pha s)) =
        (phaFromValues (l₁ ++ l₂)).map (fun s => some (Segment.pha s))
      rw [phaFromValues_middle l₁ p l₂ hp]
    by_cases e7 : sid = AM08s
    · subst e7
      show (cliFromValues (l₁ ++ p :: l₂)).map (fun s => some (Segment.cli s)) =
        (cliFromValues (l₁ ++ l₂)).map (fun s => some (Segment.cli s))
      rw [cliFromValues_middle l₁ p l₂ hp]
    simp only [parseSegmentPieces_cons, if_neg e1, if_neg e2, if_neg e3,
      if_neg e4, if_neg e5, if_neg e6, if_neg e7]
  · intro raw hraw hsid
    unfold parseSegment
    rw [if_neg hraw]
    cases hsp : splitOnChar FSc raw with
    | nil => rfl
    | cons sid vs =>
      rw [hsp] at hsid
      simp only [List.headD_cons] at hsid
      have e1 : sid ≠ AM04s := fun e => hsid (by rw [e]; decide)
      have e2 : sid ≠ AM01s := fun e => hsid (by rw [e]; decide)
      have e3 : sid ≠ AM07s := fun e => hsid (by rw [e]; decide)
      have e4 : sid ≠ AM11s := fun e => hsid (by rw [e]; decide)
      have e5 : sid ≠ AM03s := fun e => hsid (by rw [e]; decide)
      have e6 : sid ≠ AM06s := fun e => hsid (by rw [e]; decide)
      have e7 : sid ≠ AM08s := fun e => hsid (by rw [e]; decide)
      simp only [parseSegmentPieces_cons, if_neg e1, if_neg e2, if_neg e3,
        if_neg e4, if_neg e5, if_neg e6, if_neg e7]

/-- Witness: a junk `ZZ` piece inside an insurance segment changes nothing,
and an `XX12` segment parses to no variant. -/
theorem c7_forward_compat_witness :
    ((r"ZZjunk").toList.take 2 ∉ keysOf AM04s ∧
     parseSegmentPieces
       (AM04s :: ([(r"C1JOHN").toList] ++ (r"ZZjunk").toList ::
         [(r"C2ICN1").toList])) =
       parseSegmentPieces (AM04s :: ([(r"C1JOHN").toList] ++
         [(r"C2ICN1").toList]))) ∧
    ((r"XX12").toList ≠ [] ∧
     (splitOnChar FSc (r"XX12").toList).headD [] ∉ knownIds ∧
     parseSegment (r"XX12").toList = .ok none) :=
  ⟨⟨by decide,
    c7_forward_compat.1 AM04s [(r"C1JOHN").toList] (r"ZZjunk").toList
      [(r"C2ICN1").toList] (by decide)⟩,
   ⟨by decide, by decide,
    c7_forward_compat.2 (r"XX12").toList (by decide) (by decide)⟩⟩

/-! ### The decode-overpunch error characterization -/

theorem pyDigitsGo_cons_digit (c : Char) (cs : PyStr) (acc : Nat)
    (hc : c.isDigit = true) :
    pyDigitsGo acc (c :: cs) = pyDigitsGo (10 * acc + digitVal c) cs := by
  have hcne : c ≠ '_' := fun e => by subst e; exact absurd hc (by decide)
  conv_lhs => unfold pyDigitsGo
  split
  · rename_i heq
    exact absurd heq (by simp)
  · rename_i heq
    injection heq with h1 h2
    exact absurd h1 hcne
  · rename_i heq
    injection heq with h1 h2
    exact absurd h1 hcne
  · rename_i heq
    injection heq with h1 h2
    subst h1
    subst h2
    rw [if_pos hc]

theorem pyDigitsGo_digits : ∀ (l : PyStr) (acc : Nat), allDigits l = true →
    ∃ n, pyDigitsGo acc l = some n
  | [], acc, _ => ⟨acc, rfl⟩
  | c :: cs, acc, h => by
    simp only [allDigits, List.all_cons, Bool.and_eq_true] at h
    rw [pyDigitsGo_cons_digit c cs acc h.1]
    exact pyDigitsGo_digits cs _ (by simp [allDigits, h.2])

theorem pyDigitsVal_digits (c : Char) (cs : PyStr) (hc : c.isDigit = true)
    (hcs : allDigits cs = true) : ∃ n, pyDigitsVal (c :: cs) = some n := by
  have hv : pyDigitsVal (c :: cs) = pyDigitsGo (digitVal c) cs := by
    show (if c.isDigit = true then pyDigitsGo (digitVal c) cs else none) = _
    rw [if_pos hc]
  rw [hv]
  exact pyDigitsGo_digits cs _ hcs

theorem pyInt_digits (l : PyStr) (hne : l ≠ []) (hd : allDigits l = true) :
    ∃ n, pyInt l = some n := by
  have hall : ∀ c ∈ l, c.isDigit = true := by
    simp only [allDigits, List.all_eq_true, decide_eq_true_eq] at hd
    exact hd
  have hstrip : pyStrip l = l := by
    apply pyStrip_eq_self
    exact noEdgeWS_of_all (fun c hc => not_pySpace_of_digit (hall c hc))
  cases l with
  | nil => exact absurd rfl hne
  | cons c cs =>
    have hc : c.isDigit = true := hall c (by simp)
    have hplus : c ≠ '+' := fun e => by subst e; exact absurd hc (by decide)
    have hminus : c ≠ '-' := fun e => by subst e; exact absurd hc (by decide)
    have hdef : pyInt (c :: cs) =
        (pyDigitsVal (c :: cs)).map (fun n => (n : Int)) := by
      unfold pyInt
      rw [hstrip]
      split
      · rename_i heq
        injection heq with a b
        exact absurd a hplus
      · rename_i heq
        injection heq with a b
        exact absurd a hminus
      · rfl
    rw [hdef]
    obtain ⟨n, hn⟩ := pyDigitsVal_digits c cs hc (by
      simp only [allDigits, List.all_eq_true, decide_eq_true_eq]
      exact fun x hx => hall x (List.mem_cons_of_mem _ hx))
    exact ⟨n, by rw [hn]; rfl⟩

theorem decodeOverpunch_cons (a : Char) (t : PyStr) :
    decodeOverpunch (a :: t) =
      match decodeMap ((a :: t).getLastD ' ').toUpper with
      | none => .ok none
      | some (d, neg) =>
        match pyInt ((a :: t).dropLast ++ [digitChar d]) with
        | none => .error .valueError
        | some k => .ok (some (if neg then -k else k)) := rfl

/-- C8: decode fails exactly when the trailing character is not in the
mapping table or the prefix is not all digits — amended: an unmapped
trailing character (even after the `.upper()` call) makes decode return
`None` rather than raise, and `int()` accepts some non-digit prefixes
(sign characters, surrounding whitespace, inner underscores); decode
raises (a `ValueError`) exactly when the uppercased trailing character
is mapped and `int()` rejects the reassembled digit string, and an
all-digit prefix never raises (`c8_decode_counterexample` refutes the
original wording on both sides). -/
theorem c8_decode_amended (v : PyStr) (hv : v ≠ []) :
    (decodeOverpunch v = .error .valueError ↔
      (decodeMap (v.getLastD ' ').toUpper).any
        (fun p => (pyInt (v.dropLast ++ [digitChar p.1])).isNone) = true) ∧
    (decodeMap (v.getLastD ' ').toUpper = none → decodeOverpunch v = .ok none) ∧
    (allDigits v.dropLast = true → decodeOverpunch v ≠ .error .valueError) := by
  cases v with
  | nil => exact absurd rfl hv
  | cons a t =>
    rw [decodeOverpunch_cons]
    cases hm : decodeMap ((a :: t).getLastD ' ').toUpper with
    | none => simp
    | some p =>
      obtain ⟨d, neg⟩ := p
      cases hk : pyInt ((a :: t).dropLast ++ [digitChar d]) with
      | none =>
        refine ⟨by simp [hk], by simp, ?_⟩
        intro had
        have hall : allDigits ((a :: t).dropLast ++ [digitChar d]) = true := by
          simp only [allDigits, List.all_append, List.all_cons, List.all_nil,
            Bool.and_eq_true] at had ⊢
          exact ⟨had, digitChar_isDigit d, trivial⟩
        obtain ⟨n, hn⟩ := pyInt_digits ((a :: t).dropLast ++ [digitChar d])
          (by simp) hall
        rw [hn] at hk
        exact absurd hk (by simp)
      | some k => simp [hk]

/-- C8 counterexample: the trailing characters `a` and `#` are not in the
decode table, yet decode succeeds for both (`a` is uppercased to a mapped
digit, `#` yields `None` rather than an error), and the non-digit prefix
`+1` also decodes without error. -/
theorem c8_decode_counterexample :
    decodeMap 'a' = none ∧ decodeOverpunch ['1', 'a'] = .ok (some 11) ∧
    decodeMap '#' = none ∧ decodeMap ('#').toUpper = none ∧
    decodeOverpunch ['1', '#'] = .ok none ∧
    allDigits ['+', '1'] = false ∧
    decodeOverpunch ['+', '1', '{'] = .ok (some 10) := by decide

/-- Witness: the amended decode characterization evaluated at `"1B"`. -/
theorem c8_decode_witness :
    (decodeOverpunch ['1', 'B'] = .error .valueError ↔
      (decodeMap (['1', 'B'].getLastD ' ').toUpper).any
        (fun p => (pyInt (['1', 'B'].dropLast ++ [digitChar p.1])).isNone) =
        true) ∧
    (decodeMap (['1', 'B'].getLastD ' ').toUpper = none →
      decodeOverpunch ['1', 'B'] = .ok none) ∧
    (allDigits ['1', 'B'].dropLast = true →
      decodeOverpunch ['1', 'B'] ≠ .error .valueError) :=
  c8_decode_amended ['1', 'B'] (by decide)

end NCPDP
